import Mathlib

/-!
Shallow embedding of the recommendation core of the boardgame-recommender
backend (`boardgames_api`), translated from the Python sources:

* `domain/recommendations/reccomender.py` — preference-vector building,
  candidate filtering, cosine scoring, ranking;
* `utils/embedding.py` — the dict-based `EmbeddingStore.score_candidates`;
* `domain/recommendations/explainers.py` — reference-based and
  feature-based explanation providers;
* `domain/recommendations/service.py` — error classification of
  `generate_recommendations`;
* `domain/games/repository.py` — `BoardgameRepository.get_many`.

Machine floats are modelled as exact rationals (`ℚ`).  Calls into external
libraries that the repository does not implement are modelled as explicit
function parameters: `nf` stands for `numpy.linalg.norm` applied to one row,
and `kmeans` stands for `sklearn.cluster.KMeans(...).fit(...).cluster_centers_`.
Python's built-in `sorted` (a stable sort) is modelled by a stable insertion
sort with the same comparator semantics.
-/

-- Equality of `Except` results is decidable; used to evaluate the embedded
-- functions at concrete inputs.
deriving instance DecidableEq for Except

namespace BoardgamesApi

/-- A row vector (one embedding), as in a numpy 2-D array row. -/
abbrev Vec := List ℚ

/-- A matrix, as a list of rows. -/
abbrev Mat := List Vec

/-- Dot product of two rows (`numpy` row-by-row product-sum). -/
def dot (u v : Vec) : ℚ := (List.zipWith (· * ·) u v).sum

/-- Sum of squares of a row: the square of its euclidean norm. -/
def sumSq (v : Vec) : ℚ := dot v v

/-- `numpy`'s `.size` of a list-of-rows matrix: the total number of scalar
entries.  `size == 0` iff there are no rows or every row is empty. -/
def msize (m : Mat) : ℕ := (m.map List.length).sum

/-- The literal `1e-12` used by `_normalize_rows` as a negligible denominator. -/
def EPS12 : ℚ := 1 / 10 ^ 12

/-- The literal `1e-9` used by the reference explainer as a fallback best score. -/
def EPS9 : ℚ := 1 / 10 ^ 9

/-- `norms[norms == 0.0] = 1e-12` applied to one scalar norm. -/
def safeDenom (n : ℚ) : ℚ := if n = 0 then EPS12 else n

/-- Divide each entry of a row by `c`. -/
def scaleRow (c : ℚ) (v : Vec) : Vec := v.map (· / c)

/-- `_normalize_rows(matrix, norms)` (reccomender.py:208-215) with the norms
supplied: each row is divided by its norm, zero norms replaced by `1e-12`. -/
def normalize_rows_with (norms : List ℚ) (m : Mat) : Mat :=
  List.zipWith (fun n row => scaleRow (safeDenom n) row) norms m

/-- `_normalize_rows(matrix)` with `norms=None`: the norms are computed with
`np.linalg.norm` on each row, modelled by the function parameter `nf`. -/
def normalize_rows (nf : Vec → ℚ) (m : Mat) : Mat :=
  normalize_rows_with (m.map nf) m

/-- An all-zero matrix of the given shape (`np.zeros((r, c))`). -/
def zerosMat (r c : ℕ) : Mat := List.replicate r (List.replicate c (0 : ℚ))

/-- `candidates_norm @ targets_norm.T`: entry `(i, j)` is the dot product of
row `i` of `a` with row `j` of `b`. -/
def matmulT (a b : Mat) : Mat := a.map (fun ra => b.map (fun rb => dot ra rb))

/-- `_cosine_similarity(candidates, targets)` (reccomender.py:198-205). -/
def cosine_similarity (nf : Vec → ℚ) (candidates targets : Mat) : Mat :=
  if msize candidates = 0 ∨ msize targets = 0 then
    zerosMat candidates.length targets.length
  else
    matmulT (normalize_rows nf candidates) (normalize_rows nf targets)

/-- `AggregationStrategy` (reccomender.py:19-21). -/
inductive AggregationStrategy
  | mean
  | max
deriving DecidableEq, Repr

/-- `max` over a similarity row (Python `ndarray.max(axis=1)` on one row);
rows are non-empty wherever this is reached. -/
def rowMax : List ℚ → ℚ
  | [] => 0
  | x :: xs => xs.foldl max x

/-- `mean` over a similarity row (`ndarray.mean(axis=1)` on one row). -/
def rowMean (r : List ℚ) : ℚ := r.sum / r.length

/-- Per-candidate aggregation of one row of the similarity matrix. -/
def aggregate (strategy : AggregationStrategy) (r : List ℚ) : ℚ :=
  match strategy with
  | .max => rowMax r
  | .mean => rowMean r

/-- `_score_candidates(candidates, preferences, strategy, candidate_norms)`
(reccomender.py:218-239).  The `raise` on an unknown strategy is unreachable
because the Lean enum is exhaustive. -/
def score_candidates (nf : Vec → ℚ) (candidates preferences : Mat)
    (strategy : AggregationStrategy) (candidateNorms : Option (List ℚ)) :
    List ℚ :=
  let similarity :=
    match candidateNorms with
    | none => cosine_similarity nf candidates preferences
    | some ns => cosine_similarity nf (normalize_rows_with ns candidates) preferences
  if msize similarity = 0 then []
  else similarity.map (aggregate strategy)

/-- `liked_matrix.mean(axis=0)`: the column-wise mean row of a matrix. -/
def vecAdd (u v : Vec) : Vec := List.zipWith (· + ·) u v

/-- Column-wise sum of the rows of a matrix. -/
def colSum : Mat → Vec
  | [] => []
  | r :: rs => rs.foldl vecAdd r

/-- Column-wise mean of the rows of a matrix (`.mean(axis=0)`). -/
def rowMeanVec (m : Mat) : Vec := (colSum m).map (· / (m.length : ℚ))

/-- The recommendation error classes of
`domain/recommendations/exceptions.py`. -/
inductive RecError
  | inputError (msg : String)
  | unavailableError (msg : String)
deriving DecidableEq, Repr

/-- `_determine_centroid_count` (reccomender.py:145-161).  Python `//` on
non-negative ints agrees with `Int` division; `math.floor` on the product is
`Int.floor` of the rational product. -/
def determine_centroid_count (likedCount minSamplesPerCentroid : ℤ)
    (dynamicCentroids : Bool) (centroidScalingFactor : ℚ) :
    Except RecError ℤ :=
  if likedCount ≤ 0 then
    .error (.unavailableError "liked_count must be positive.")
  else if likedCount < max 1 minSamplesPerCentroid then
    .ok 1
  else if dynamicCentroids then
    .ok (max 1 (min (max 1 ⌊(likedCount : ℚ) * centroidScalingFactor⌋) likedCount))
  else
    .ok (max 1 (min (likedCount / max 1 minSamplesPerCentroid) likedCount))

/-- `_run_kmeans(data, n_clusters, random_state)` (reccomender.py:164-182).
The external `sklearn` fit is the parameter `kmeans`; the `n_clusters == 1`
shortcut and the sample-count guard are the repository's own code. -/
def run_kmeans (kmeans : Mat → ℤ → Mat) (data : Mat) (nClusters : ℤ) :
    Except RecError Mat :=
  if (data.length : ℤ) < nClusters then
    .error (.unavailableError "Cannot run k-means: more clusters than samples.")
  else if nClusters = 1 then
    .ok [rowMeanVec data]
  else
    .ok (kmeans data nClusters)

/-- `_build_preference_vectors` (reccomender.py:112-142). -/
def build_preference_vectors (nf : Vec → ℚ) (kmeans : Mat → ℤ → Mat)
    (likedMatrix : Mat) (minSamplesPerCentroid : ℤ) (dynamicCentroids : Bool)
    (centroidScalingFactor : ℚ) : Except RecError Mat :=
  if msize likedMatrix = 0 then
    .error (.unavailableError "Liked games could not be mapped to the embedding space.")
  else do
    let likedCount : ℤ := likedMatrix.length
    let centroidCount ← determine_centroid_count likedCount minSamplesPerCentroid
      dynamicCentroids centroidScalingFactor
    let preferenceVectors ←
      if centroidCount = 1 ∨ likedCount ≤ centroidCount then
        pure [rowMeanVec likedMatrix]
      else
        let safeCentroids := max 1 (min centroidCount (max 1 (likedCount / 2)))
        run_kmeans kmeans likedMatrix safeCentroids
    pure (normalize_rows nf preferenceVectors)

/-- The `Embeddings` dataclass of `infrastructure/embeddings.py` (also the
shape of `utils/embedding.py`'s `EmbeddingStore`): per-item ids, vectors and
precomputed row norms, plus the id→name lookup. -/
structure Embeddings where
  bggIds : List ℤ
  vectors : Mat
  norms : List ℚ
  names : ℤ → Option String

/-- `Embeddings.has_id`: membership of an id in the store. -/
def Embeddings.has_id (e : Embeddings) (bggId : ℤ) : Bool := bggId ∈ e.bggIds

/-- `Embeddings.get_name`. -/
def Embeddings.get_name (e : Embeddings) (bggId : ℤ) : Option String := e.names bggId

/-- The dict comprehension `{int(bgg_id): idx for idx, bgg_id in enumerate(ids)}`:
maps an id to its index; with duplicate ids, the later index wins. -/
def idIndex (ids : List ℤ) (x : ℤ) : Option ℕ :=
  ((List.range ids.length).filter (fun j => ids.getD j 0 = x)).getLast?

/-- One scored candidate (`ScoredGameId`, reccomender.py:24-27). -/
structure ScoredGameId where
  score : ℚ
  bggId : ℤ
deriving DecidableEq, Repr

/-- `PreferenceClusterConfig` (reccomender.py:30-34). -/
structure PreferenceClusterConfig where
  minSamplesPerCentroid : ℤ := 2
  dynamicCentroids : Bool := true
  centroidScalingFactor : ℚ := 1 / 2

/-- `_filter_candidates(embedding, liked_ids)` (reccomender.py:185-195):
keep the positions whose id is not a liked id, and return the ids, vectors
and norms at those positions, with aligned ordering. -/
def filter_candidates (embedding : Embeddings) (likedIds : List ℤ) :
    List ℤ × Mat × List ℚ :=
  let keep := (List.range embedding.bggIds.length).filter
    (fun i => embedding.bggIds.getD i 0 ∉ likedIds)
  (keep.map (fun i => embedding.bggIds.getD i 0),
   keep.map (fun i => embedding.vectors.getD i []),
   keep.map (fun i => embedding.norms.getD i 0))

/-- Stable descending insertion by key: the new element `x` (which came later
in the original list) is placed after every element with key ≥ its own. -/
def insertByDesc (key : α → ℚ) (x : α) : List α → List α
  | [] => [x]
  | y :: ys => if key y > key x then y :: insertByDesc key x ys else x :: y :: ys

/-- Python's stable `sorted(xs, key=key, reverse=True)`: descending by key,
elements with equal keys keep their original relative order. -/
def sortByDesc (key : α → ℚ) : List α → List α
  | [] => []
  | x :: xs => insertByDesc key x (sortByDesc key xs)

/-- `EmbeddingSimilarityRecommender.recommend` (reccomender.py:61-109).
`nf` models `np.linalg.norm` on one row and `kmeans` the sklearn fit. -/
def recommend (nf : Vec → ℚ) (kmeans : Mat → ℤ → Mat)
    (cfg : PreferenceClusterConfig) (aggregation : AggregationStrategy)
    (embedding : Embeddings) (likedGames : List ℤ) (numResults : ℤ) :
    Except RecError (List ScoredGameId) :=
  if numResults ≤ 0 then
    .error (.unavailableError "num_results must be positive.")
  else
    let likedIds := likedGames.filter (fun g => embedding.has_id g)
    if likedIds = [] then
      .error (.unavailableError
        "No embeddings available for the liked games; choose games that exist in the dataset.")
    else do
      let likedIndices := likedIds.filterMap (idIndex embedding.bggIds)
      let likedMatrix := likedIndices.map (fun i => embedding.vectors.getD i [])
      let preferenceVectors ← build_preference_vectors nf kmeans likedMatrix
        cfg.minSamplesPerCentroid cfg.dynamicCentroids cfg.centroidScalingFactor
      let (candidateIds, candMatrix, candNorms) := filter_candidates embedding likedIds
      let scores := score_candidates nf candMatrix preferenceVectors aggregation
        (some candNorms)
      let ranked := List.zipWith (fun cid s => ScoredGameId.mk s cid) candidateIds scores
      let sorted := sortByDesc ScoredGameId.score ranked
      pure (sorted.take numResults.toNat)

/-- `EmbeddingStore.score_candidates(liked_ids, candidate_ids)`
(utils/embedding.py:31-59): dict-based scoring against the mean of the liked
vectors.  The returned Python dict is modelled as the association list built
in insertion order.  `np.isfinite(center_norm)` always holds over `ℚ`. -/
def store_score_candidates (nf : Vec → ℚ) (store : Embeddings)
    (likedIds candidateIds : List ℤ) : List (ℤ × ℚ) :=
  let likedIndices := likedIds.filterMap (idIndex store.bggIds)
  if likedIndices = [] then []
  else
    let candidateIndices := candidateIds.filterMap (idIndex store.bggIds)
    if candidateIndices = [] then []
    else
      let likedVecs := likedIndices.map (fun i => store.vectors.getD i [])
      let center := rowMeanVec likedVecs
      let centerNorm := nf center
      if centerNorm = 0 then []
      else
        candidateIndices.map (fun idx =>
          let denom := safeDenom (store.norms.getD idx 0 * centerNorm)
          (store.bggIds.getD idx 0, dot (store.vectors.getD idx []) center / denom))

/-- `ReferenceExplanation` (schemas.py:80-85). -/
structure ReferenceExplanation where
  bggId : ℤ
  title : String
  influence : String
deriving DecidableEq, Repr

/-- `FeatureExplanation` (schemas.py:88-93). -/
structure FeatureExplanation where
  label : String
  category : String
  influence : String
deriving DecidableEq, Repr

/-- `RecommendationExplanation` (schemas.py:62-77). -/
structure RecommendationExplanation where
  type : String
  references : Option (List ReferenceExplanation)
  features : Option (List FeatureExplanation)
deriving DecidableEq, Repr

/-- The `_similarity(a_id, b_id)` closure shared by both explanation providers
(explainers.py:248-256 and 373-381): the cosine similarity of two stored
vectors via the precomputed norms, `None` when an id is absent or the norm
product is zero. -/
def similarity (store : Embeddings) (aId bId : ℤ) : Option ℚ :=
  match idIndex store.bggIds aId, idIndex store.bggIds bId with
  | some ai, some bi =>
    let denom := store.norms.getD ai 0 * store.norms.getD bi 0
    if denom = 0 then none
    else some (dot (store.vectors.getD ai []) (store.vectors.getD bi []) / denom)
  | _, _ => none

/-- Replace the first element of a list using `f` (Python `xs[0] = ...`). -/
def setFirstWith (f : α → α) : List α → List α
  | [] => []
  | x :: xs => f x :: xs

/-- Replace the last element of a list using `f` (Python `xs[-1] = ...`). -/
def setLastWith (f : α → α) : List α → List α
  | [] => []
  | [x] => [f x]
  | x :: y :: xs => x :: setLastWith f (y :: xs)

/-- The per-liked similarity pairs of one recommended candidate: each liked id
paired with its similarity, keeping only successful comparisons. -/
def simPairs (store : Embeddings) (likedList : List ℤ) (candId : ℤ) :
    List (ℤ × ℚ) :=
  likedList.filterMap (fun lid => (similarity store candId lid).map (fun s => (lid, s)))

/-- The body of the per-candidate loop of
`SimilarityExplanationProvider.add_explanations` (explainers.py:258-339):
`r` is the 0-based rank of `item` in the ranked list. -/
def explainOneRef (store : Embeddings) (likedList : List ℤ) (topScore : ℚ)
    (maxReferences : ℕ) (r : ℕ) (item : ScoredGameId) :
    RecommendationExplanation :=
  let simsSorted := sortByDesc Prod.snd (simPairs store likedList item.bggId)
  let simsRot :=
    if simsSorted ≠ [] ∧ 2 < r then
      let shift := r % simsSorted.length
      simsSorted.drop shift ++ simsSorted.take shift
    else simsSorted
  let sims := simsRot.take maxReferences
  if sims = [] then
    { type := "references",
      references := some ((likedList.take maxReferences).map (fun lid =>
        ReferenceExplanation.mk lid ((store.get_name lid).getD "") "positive")),
      features := none }
  else
    let allowTwoPositive :=
      (r < 3 ∨ (0 < topScore ∧ 85 / 100 * topScore ≤ item.score)) ∧ 2 ≤ sims.length
    let s0 := (sims.headD (0, 0)).2
    let bestScore := if s0 = 0 then EPS9 else s0
    let refs := sims.enum.map (fun p =>
      let rel := if bestScore ≠ 0 then p.2.2 / bestScore else 0
      let influence :=
        if p.1 = 0 ∨ (allowTwoPositive ∧ p.1 = 1) then "positive"
        else if rel < 1 / 2 ∨ p.2.2 < 15 / 100 then "negative"
        else "neutral"
      ReferenceExplanation.mk p.2.1 ((store.get_name p.2.1).getD "") influence)
    let refs2 :=
      if refs ≠ [] ∧ refs.all (fun t => t.influence = "positive") ∧ 1 < refs.length then
        setLastWith (fun t => { t with influence := "neutral" }) refs
      else refs
    let refs3 :=
      if refs2 ≠ [] ∧ 1 < refs2.length ∧
          (3 ≤ r ∨ (0 < topScore ∧ item.score < 7 / 10 * topScore)) then
        setLastWith (fun t => { t with influence := "negative" }) refs2
      else refs2
    { type := "references", references := some refs3, features := none }

/-- `SimilarityExplanationProvider.add_explanations` (explainers.py:231-340).
The store is assumed loaded (a `None` store returns `[]` upstream). -/
def SimilarityExplanationProvider.add_explanations (maxReferences : ℕ)
    (store : Embeddings) (ranked : List ScoredGameId) (likedGames : List ℤ) :
    List RecommendationExplanation :=
  let likedList := likedGames.filter (fun g => store.has_id g)
  let topScore := match ranked with | [] => 0 | it :: _ => it.score
  ranked.enum.map (fun p => explainOneRef store likedList topScore maxReferences p.1 p.2)

/-- `_MECHANICS_KEYWORDS` (explainers.py:15-128). -/
def MECHANICS_KEYWORDS : List String := [
  "acting", "action event", "action drafting", "action points", "action queue",
  "action retrieval", "action timer", "advantage token", "alliances",
  "area majority influence", "area movement", "area impulse", "auction bidding",
  "auction compensation", "auction: dexterity", "auction: dutch",
  "auction: dutch priority", "auction: english", "auction: fixed placement",
  "auction: multiple lot", "auction: once around", "auction: sealed bid",
  "auction: turn order until pass", "automatic resource growth",
  "betting and bluffing", "bingo", "bribery", "card play conflict resolution",
  "catch the leader", "chaining", "closed drafting", "closed economy auction",
  "contracts", "cooperative game", "deck bag and pool building", "deduction",
  "delayed purchase", "dice rolling", "die icon resolution", "enclosure",
  "end game bonuses", "follow", "grid movement", "hand management",
  "hidden movement", "hidden roles", "hidden victory points", "i cut you choose",
  "income", "increase value of unchosen resources", "investment", "kill steal",
  "king of the hill", "ladder climbing", "legacy game", "loans", "lose a turn",
  "mancala", "map addition", "map reduction", "matching", "memory",
  "modular board", "move through deck", "movement points", "multi use cards",
  "negotiation", "network and route building", "once per game abilities",
  "open drafting", "order counters", "paper and pencil", "pattern building",
  "pattern recognition", "pick up and deliver", "player elimination",
  "point to point movement", "predictive bid", "programmed movement",
  "push your luck", "race", "real time", "resource queue", "role playing",
  "roles with asymmetric information", "roll spin and move",
  "scenario mission campaign game", "score and reset game",
  "secret unit deployment", "selection order bid", "semi cooperative game",
  "set collection", "simulation", "simultaneous action selection",
  "solo solitaire game", "stacking and balancing", "stock holding",
  "storytelling", "take that", "targeted clues", "team based game",
  "tech trees tech tracks", "tile placement", "trading", "traitor game",
  "trick taking", "turn order: auction", "turn order: random",
  "variable player powers", "variable set up", "voting", "worker placement"]

/-- `_THEME_KEYWORDS` (explainers.py:130-196).  The term "children's game" is
spelled with `Char.ofNat 39` for the apostrophe. -/
def THEME_KEYWORDS : List String := [
  "abstract strategy", "action dexterity", "adventure", "american west",
  "ancient", "animals", "arabian", "aviation flight", "bluffing", "book",
  "card game", "children" ++ String.singleton (Char.ofNat 39) ++ "s game",
  "city building", "civilization", "comic book strip", "deduction", "dice",
  "economic", "educational", "electronic", "environmental",
  "expansion for base game", "exploration", "fantasy", "farming", "fighting",
  "game system", "horror", "humor", "industry manufacturing", "math", "medical",
  "medieval", "memory", "modern warfare", "movies tv radio theme",
  "murder mystery", "music", "mythology", "nautical", "negotiation",
  "novel based", "number", "party game", "pirates", "political", "prehistoric",
  "print & play", "puzzle", "racing", "real time", "renaissance",
  "science fiction", "space exploration", "spies secret agents", "sports",
  "territory building", "trains", "transportation", "travel", "trivia",
  "video game theme", "wargame", "word game", "zombies"]

/-- `_GENRE_KEYWORDS` (explainers.py:198-208). -/
def GENRE_KEYWORDS : List String := [
  "abstract", "card", "childrens", "customizable", "family", "party",
  "strategy", "thematic", "war"]

/-- The attributes of a boardgame record that the explainers and the games
repository read (`BoardgameRecord` / `BoardGameResponse`). -/
structure Boardgame where
  id : ℤ
  title : String
  mechanics : List String
  themes : List String
  genre : List String
deriving DecidableEq, Repr

/-- The dict comprehension `{bg.id: bg for bg in boardgames}`: lookup by id,
later entries winning on duplicate ids. -/
def lookupById (boardgames : List Boardgame) (i : ℤ) : Option Boardgame :=
  (boardgames.filter (fun b => b.id = i)).getLast?

/-- Does `needle` occur as a prefix of `hay` (character lists)? -/
def charsPrefix : List Char → List Char → Bool
  | [], _ => true
  | _ :: _, [] => false
  | a :: as, b :: bs => a = b && charsPrefix as bs

/-- Python's substring test `needle in hay` on character lists. -/
def charsContains (needle : List Char) : List Char → Bool
  | [] => charsPrefix needle []
  | b :: bs => charsPrefix needle (b :: bs) || charsContains needle bs

/-- `FeatureHintExplanationProvider._split_feature_labels`
(explainers.py:515-534): split a concatenated label into known vocabulary
terms (substring matches, vocabulary order, deduplicated), falling back to
the original label when nothing matches. -/
def split_feature_labels (label category : String) : List String :=
  if category = "genre" then [label]
  else
    let vocab :=
      if category = "mechanic" then MECHANICS_KEYWORDS
      else if category = "theme" then THEME_KEYWORDS
      else if category = "genre" then GENRE_KEYWORDS
      else []
    let lowered := label.toLower
    let tokens := vocab.foldl (fun acc term =>
      if charsContains term.toList lowered.toList ∧ term ∉ acc then acc ++ [term]
      else acc) []
    if tokens = [] then [label] else tokens

/-- `FeatureHintExplanationProvider._feature_hints` (explainers.py:495-513):
deduplicated (label, category) pairs from mechanics, themes, then genres,
skipping empty labels, with the title as a theme when nothing was tagged. -/
def feature_hints (game : Boardgame) : List (String × String) :=
  let step := fun (acc : List (String × String)) (p : String × String) =>
    if p.1 ≠ "" ∧ p ∉ acc then acc ++ [p] else acc
  let suggestions :=
    ((game.mechanics.map (fun m => (m, "mechanic"))) ++
     (game.themes.map (fun t => (t, "theme"))) ++
     (game.genre.map (fun g => (g, "genre")))).foldl step []
  if suggestions = [] then
    (if game.title ≠ "" then [(game.title, "theme")] else [])
  else suggestions

/-- The stream of (token, category) pairs produced by the nested
label-splitting loops of `FeatureHintExplanationProvider.add_explanations`;
the loops append these in order and break once `max_features` is reached,
which is `List.take max_features` of this stream. -/
def featureTokenStream (game : Boardgame) : List (String × String) :=
  (feature_hints game).flatMap (fun p =>
    (split_feature_labels p.1 p.2).map (fun tok => (tok, p.2)))

/-- The body of the per-candidate loop of
`FeatureHintExplanationProvider.add_explanations` (explainers.py:383-492):
`idx` is the 0-based rank of `item` in the ranked list. -/
def explainOneFeat (store : Embeddings) (boardgames : List Boardgame)
    (likedList : List ℤ) (topScore : ℚ) (maxFeatures : ℕ) (idx : ℕ)
    (item : ScoredGameId) : RecommendationExplanation :=
  match lookupById boardgames item.bggId with
  | none => { type := "features", features := some [], references := none }
  | some candidate =>
    if likedList = [] then
      { type := "features",
        features := some (((featureTokenStream candidate).take maxFeatures).map
          (fun p => FeatureExplanation.mk p.1 p.2 "positive")),
        references := none }
    else
      let pairs := simPairs store likedList item.bggId
      let sims := pairs.map Prod.snd
      let likedWithGames := pairs.filterMap (fun p => lookupById boardgames p.1)
      let mechanicSet := likedWithGames.flatMap Boardgame.mechanics
      let themeSet := likedWithGames.flatMap Boardgame.themes
      let genreSet := likedWithGames.flatMap Boardgame.genre
      let bestSim : ℚ := match sortByDesc (fun s => s) sims with | [] => 0 | s :: _ => s
      let hints0 := ((featureTokenStream candidate).take maxFeatures).map (fun p =>
        let inLikedSet :=
          (p.2 = "mechanic" ∧ p.1 ∈ mechanicSet) ∨
          (p.2 = "theme" ∧ p.1 ∈ themeSet) ∨
          (p.2 = "genre" ∧ p.1 ∈ genreSet)
        let influence :=
          if inLikedSet ∧ 2 / 5 ≤ bestSim then "positive"
          else if bestSim < 1 / 5 then "negative"
          else "neutral"
        FeatureExplanation.mk p.1 p.2 influence)
      let positiveCount := (hints0.filter (fun h => h.influence = "positive")).length
      let forced := hints0 ≠ [] ∧ positiveCount = 0
      let hints1 :=
        if forced then setFirstWith (fun h => { h with influence := "positive" }) hints0
        else hints0
      let positiveCount1 := if forced then 1 else positiveCount
      let hints2 :=
        if hints1 ≠ [] ∧ 1 < hints1.length ∧
            (item.score < 6 / 10 * topScore ∨ 4 ≤ idx) ∧ 0 < positiveCount1 then
          setLastWith (fun h => { h with influence := "negative" }) hints1
        else hints1
      { type := "features", features := some hints2, references := none }

/-- `FeatureHintExplanationProvider.add_explanations` (explainers.py:355-493).
The store is assumed loaded (a `None` store returns `[]` upstream). -/
def FeatureHintExplanationProvider.add_explanations (maxFeatures : ℕ)
    (store : Embeddings) (ranked : List ScoredGameId) (likedGames : List ℤ)
    (boardgames : List Boardgame) : List RecommendationExplanation :=
  let likedList := likedGames.filter (fun g => store.has_id g)
  let topScore := match ranked with | [] => 0 | it :: _ => it.score
  ranked.enum.map (fun p =>
    explainOneFeat store boardgames likedList topScore maxFeatures p.1 p.2)

/-- The error-classifying prefix of `generate_recommendations`
(service.py:99-125): empty candidate pool → input error; missing store →
availability error; liked ids absent from the embedding → input error naming
the offenders. -/
def generate_recommendations_checks (candidates : List Boardgame)
    (store : Option Embeddings) (likedGames : List ℤ) : Except RecError Embeddings :=
  if candidates = [] then
    .error (.inputError "No recommendations could be generated. Try adjusting player count, duration, or liked games.")
  else
    match store with
    | none => .error (.unavailableError
        "Embedding store is not available; train and load embeddings before requesting recommendations.")
    | some s =>
      let missingLiked := likedGames.filter (fun g => ¬ s.has_id g)
      if missingLiked ≠ [] then
        .error (.inputError "Liked games not found in embeddings. Choose liked games that exist in the dataset.")
      else .ok s

/-- `BoardgameRepository.get_many(ids)` (domain/games/repository.py:105-113):
`SELECT ... WHERE id IN ids`, then re-ordered to the requested order via an
id-keyed dict, silently dropping ids without a record. -/
def get_many (records : List Boardgame) (ids : List ℤ) : List Boardgame :=
  if ids = [] then []
  else
    let selected := records.filter (fun r => r.id ∈ ids)
    ids.filterMap (fun i => (selected.filter (fun r => r.id = i)).getLast?)

/-- The matrix actually passed to `_cosine_similarity` by `_score_candidates`:
the raw candidates, or the candidates pre-normalized by the supplied norms. -/
def candMatrixFor (candidates : Mat) : Option (List ℚ) → Mat
  | none => candidates
  | some ns => normalize_rows_with ns candidates

/-- The row of cosine similarities of candidate `i` against every preference
vector, as computed inside `_score_candidates`. -/
def similarityRow (nf : Vec → ℚ) (candidates preferences : Mat)
    (cn : Option (List ℚ)) (i : ℕ) : List ℚ :=
  (cosine_similarity nf (candMatrixFor candidates cn) preferences).getD i []

/-- The centroid-count rule exactly as the specification words it (spec §4.3):
1 when `L < max(1, min_samples_per_centroid)`; otherwise
`clamp(floor(L*scaling_factor), 1, L)` under the dynamic policy and
`clamp(L // min_samples_per_centroid, 1, L)` under the fixed policy.  This is
the spec-side definition, to be compared with `determine_centroid_count`. -/
def specCentroidCount (L ms : ℤ) (dynamic : Bool) (sf : ℚ) : ℤ :=
  if L < max 1 ms then 1
  else if dynamic then max 1 (min ⌊(L : ℚ) * sf⌋ L)
  else max 1 (min (L / ms) L)

/-- The concrete store of the spec scenario for MAX aggregation: liked item A
(id 1, vector `[1,0]`), candidates B (id 2, `[9/10,1/10]`) and C (id 3,
`[0,1]`); `nB` is the stored norm of B (its true norm is `sqrt 0.82`, any
positive value is covered by the theorems). -/
def scenarioStore (nB : ℚ) : Embeddings :=
  Embeddings.mk [1, 2, 3] [[1, 0], [9 / 10, 1 / 10], [0, 1]] [1, nB, 1] (fun _ => none)

/-- Does a result carry the client-correctable input-error class
(`RecommendationInputError`, mapped to HTTP 400 in routes.py)? -/
def resultIsInputError {α : Type} : Except RecError α → Bool
  | .error (.inputError _) => true
  | _ => false

/-- Does a result carry the availability-error class
(`RecommendationUnavailableError`, mapped to HTTP 503 in routes.py)? -/
def resultIsAvailabilityError {α : Type} : Except RecError α → Bool
  | .error (.unavailableError _) => true
  | _ => false

/- ======================================================================
   Theorems.  Everything below is proof; no further program definitions.
   ====================================================================== -/

lemma getLast?_mem {α : Type} {l : List α} {a : α} (h : l.getLast? = some a) :
    a ∈ l := by
  obtain ⟨hne, rfl⟩ := List.mem_getLast?_eq_getLast (by simpa using h)
  exact List.getLast_mem hne

lemma length_normalize_rows_with (norms : List ℚ) (m : Mat) :
    (normalize_rows_with norms m).length = min norms.length m.length := by
  simp [normalize_rows_with]

lemma length_normalize_rows (nf : Vec → ℚ) (m : Mat) :
    (normalize_rows nf m).length = m.length := by
  simp [normalize_rows, length_normalize_rows_with]

lemma getElem_normalize_rows (nf : Vec → ℚ) (m : Mat) (i : ℕ)
    (h : i < (normalize_rows nf m).length) :
    (normalize_rows nf m)[i] =
      scaleRow (safeDenom (nf (m.get ⟨i, by simpa [length_normalize_rows] using h⟩)))
        (m.get ⟨i, by simpa [length_normalize_rows] using h⟩) := by
  simp [normalize_rows, normalize_rows_with, List.getElem_zipWith, List.getElem_map]

lemma length_cosine_similarity (nf : Vec → ℚ) (a b : Mat) :
    (cosine_similarity nf a b).length = a.length := by
  unfold cosine_similarity
  split
  · simp [zerosMat]
  · simp [matmulT, length_normalize_rows]

lemma row_mem_length_cosine_similarity (nf : Vec → ℚ) (a b : Mat) :
    ∀ r ∈ cosine_similarity nf a b, r.length = b.length := by
  intro r hr
  unfold cosine_similarity at hr
  split at hr
  · simp only [zerosMat, List.mem_replicate] at hr
    simp [hr.2]
  · simp only [matmulT, List.mem_map] at hr
    obtain ⟨ra, _, rfl⟩ := hr
    simp [length_normalize_rows]

lemma msize_eq_mul {m : Mat} {k : ℕ} (h : ∀ r ∈ m, r.length = k) :
    msize m = m.length * k := by
  induction m with
  | nil => simp [msize]
  | cons r rs ih =>
    have hr := h r (by simp)
    have hrs := ih (fun s hs => h s (by simp [hs]))
    simp only [msize, List.map_cons, List.sum_cons] at hrs ⊢
    rw [hr, hrs]
    simp [List.length_cons, Nat.mul_add, Nat.mul_comm, Nat.add_comm]

lemma row_eq_nil_of_msize_zero {m : Mat} (h : msize m = 0) {r : Vec}
    (hr : r ∈ m) : r = [] := by
  have : r.length = 0 := by
    have := List.sum_eq_zero_iff.mp (by simpa [msize] using h)
    exact this r.length (List.mem_map_of_mem List.length hr)
  simpa using this

lemma getElem_cosine_similarity (nf : Vec → ℚ) (a b : Mat) (i j : ℕ)
    (hi : i < a.length) (hj : j < b.length) :
    ((cosine_similarity nf a b).getD i []).getD j 0 =
      dot (scaleRow (safeDenom (nf (a.get ⟨i, hi⟩))) (a.get ⟨i, hi⟩))
          (scaleRow (safeDenom (nf (b.get ⟨j, hj⟩))) (b.get ⟨j, hj⟩)) := by
  unfold cosine_similarity
  split
  · next hz =>
    have hza : ∀ r ∈ a, r = [] ∨ ∀ r ∈ b, r = [] := by
      rcases hz with hz | hz
      · exact fun r hr => Or.inl (row_eq_nil_of_msize_zero hz hr)
      · exact fun _ _ => Or.inr (fun r hr => row_eq_nil_of_msize_zero hz hr)
    have hrow : (zerosMat a.length b.length).getD i [] = List.replicate b.length 0 := by
      rw [List.getD_eq_getElem _ _ (by simpa [zerosMat] using hi)]
      simp [zerosMat]
    rw [hrow]
    rcases hza (a[i]) (List.getElem_mem hi) with hnil | hb
    · rw [List.getD_eq_getElem _ _ (by simpa using hj)]
      simp [hnil, dot, scaleRow]
    · have : b[j] = [] := hb _ (List.getElem_mem hj)
      rw [List.getD_eq_getElem _ _ (by simpa using hj)]
      simp [this, dot, scaleRow]
  · have hi2 : i < (matmulT (normalize_rows nf a) (normalize_rows nf b)).length := by
      simp [matmulT, length_normalize_rows, hi]
    rw [List.getD_eq_getElem _ _ hi2]
    have hj2 : j < (normalize_rows nf b).length := by simp [length_normalize_rows, hj]
    unfold matmulT
    rw [List.getElem_map]
    rw [List.getD_eq_getElem _ _ (by simpa [length_normalize_rows] using hj)]
    rw [List.getElem_map]
    rw [getElem_normalize_rows, getElem_normalize_rows]

lemma sim_match_eq (nf : Vec → ℚ) (candidates preferences : Mat)
    (cn : Option (List ℚ)) :
    (match cn with
      | none => cosine_similarity nf candidates preferences
      | some ns => cosine_similarity nf (normalize_rows_with ns candidates) preferences) =
    cosine_similarity nf (candMatrixFor candidates cn) preferences := by
  cases cn <;> rfl

lemma candMatrixFor_length (candidates : Mat) (cn : Option (List ℚ))
    (hn : ∀ ns, cn = some ns → ns.length = candidates.length) :
    (candMatrixFor candidates cn).length = candidates.length := by
  cases cn with
  | none => rfl
  | some ns => simp [candMatrixFor, length_normalize_rows_with, hn ns rfl]

lemma score_candidates_eq (nf : Vec → ℚ) (candidates preferences : Mat)
    (strategy : AggregationStrategy) (cn : Option (List ℚ)) :
    score_candidates nf candidates preferences strategy cn =
      (if msize (cosine_similarity nf (candMatrixFor candidates cn) preferences) = 0 then []
       else (cosine_similarity nf (candMatrixFor candidates cn) preferences).map
         (aggregate strategy)) := by
  unfold score_candidates
  rw [sim_match_eq]

lemma score_candidates_length (nf : Vec → ℚ) (candidates preferences : Mat)
    (strategy : AggregationStrategy) (cn : Option (List ℚ))
    (hp : preferences ≠ [])
    (hn : ∀ ns, cn = some ns → ns.length = candidates.length) :
    (score_candidates nf candidates preferences strategy cn).length =
      candidates.length := by
  have hA := candMatrixFor_length candidates cn hn
  have hsim : (cosine_similarity nf (candMatrixFor candidates cn) preferences).length =
      candidates.length := by rw [length_cosine_similarity, hA]
  have hms : msize (cosine_similarity nf (candMatrixFor candidates cn) preferences) =
      candidates.length * preferences.length := by
    rw [msize_eq_mul (row_mem_length_cosine_similarity nf _ preferences), hsim]
  rw [score_candidates_eq]
  split
  · next hz =>
    rw [hms] at hz
    have : candidates.length = 0 := by
      rcases Nat.mul_eq_zero.mp hz with h | h
      · exact h
      · exact absurd (List.length_eq_zero.mp h) hp
    simp [this]
  · simp [hsim]

lemma score_candidates_getD (nf : Vec → ℚ) (candidates preferences : Mat)
    (strategy : AggregationStrategy) (cn : Option (List ℚ))
    (hn : ∀ ns, cn = some ns → ns.length = candidates.length)
    (i : ℕ) (hi : i < candidates.length)
    (hnz : ¬ msize (cosine_similarity nf (candMatrixFor candidates cn) preferences) = 0) :
    (score_candidates nf candidates preferences strategy cn).getD i 0 =
      aggregate strategy (similarityRow nf candidates preferences cn i) := by
  have hA := candMatrixFor_length candidates cn hn
  have hsim : (cosine_similarity nf (candMatrixFor candidates cn) preferences).length =
      candidates.length := by rw [length_cosine_similarity, hA]
  rw [score_candidates_eq]
  rw [if_neg hnz]
  unfold similarityRow
  rw [List.getD_eq_getElem _ _ (by simpa [hsim] using hi),
    List.getD_eq_getElem _ _ (by simpa [hsim] using hi), List.getElem_map]

lemma idIndex_eq_none_iff (l : List ℤ) (x : ℤ) : idIndex l x = none ↔ x ∉ l := by
  unfold idIndex
  rw [List.getLast?_eq_none_iff, List.filter_eq_nil_iff]
  constructor
  · intro h hx
    obtain ⟨j, hj, hget⟩ := List.mem_iff_getElem.mp hx
    refine h j (List.mem_range.mpr hj) ?_
    rw [decide_eq_true_eq, List.getD_eq_getElem l 0 hj]
    exact hget
  · intro hx j hj hget
    have hj2 : j < l.length := List.mem_range.mp hj
    rw [decide_eq_true_eq, List.getD_eq_getElem l 0 hj2] at hget
    exact hx (hget ▸ List.getElem_mem hj2)

lemma idIndex_getD {l : List ℤ} {x : ℤ} {j : ℕ} (h : idIndex l x = some j) :
    l.getD j 0 = x := by
  have hmem := getLast?_mem h
  have := List.mem_filter.mp hmem
  simpa using this.2

lemma filterMap_idIndex_map_getD (l : List ℤ) (ids : List ℤ) :
    (ids.filterMap (idIndex l)).map (fun j => l.getD j 0) =
      ids.filter (fun i => decide (i ∈ l)) := by
  induction ids with
  | nil => simp
  | cons a as ih =>
    cases h : idIndex l a with
    | none =>
      have hna : a ∉ l := (idIndex_eq_none_iff l a).mp h
      rw [List.filterMap_cons_none h, List.filter_cons_of_neg (by simpa using hna)]
      exact ih
    | some j =>
      have hmem : a ∈ l := by
        by_contra hc
        rw [(idIndex_eq_none_iff l a).mpr hc] at h
        cases h
      have hget : l.getD j 0 = a := idIndex_getD h
      rw [List.filterMap_cons_some h, List.filter_cons_of_pos (by simpa using hmem),
        List.map_cons, hget]
      rw [ih]

lemma store_score_candidates_keys (nf : Vec → ℚ) (store : Embeddings)
    (likedIds candidateIds : List ℤ)
    (hliked : likedIds.filterMap (idIndex store.bggIds) ≠ [])
    (hcenter : nf (rowMeanVec ((likedIds.filterMap (idIndex store.bggIds)).map
        (fun i => store.vectors.getD i []))) ≠ 0) :
    (store_score_candidates nf store likedIds candidateIds).map Prod.fst =
      candidateIds.filter (fun i => store.has_id i) := by
  have hfilter : candidateIds.filter (fun i => store.has_id i) =
      (candidateIds.filterMap (idIndex store.bggIds)).map
        (fun j => store.bggIds.getD j 0) := by
    rw [filterMap_idIndex_map_getD]
    rfl
  unfold store_score_candidates
  rw [if_neg hliked]
  by_cases hcand : candidateIds.filterMap (idIndex store.bggIds) = []
  · rw [if_pos hcand, hfilter, hcand]
    simp
  · rw [if_neg hcand, if_neg hcenter, List.map_map, hfilter]
    rfl

/-- Claim C1: the candidate scorer's output is strictly position-aligned with
its input: with a non-empty preference set (and candidate norms, when given,
aligned with the candidates), `_score_candidates` returns exactly one score
per candidate row, and the `i`-th score is the chosen aggregation of the
`i`-th candidate's cosine-similarity row; and the dict-based
`EmbeddingStore.score_candidates` scores exactly the supplied candidate ids
that are present in the embedding — no phantom ids, none dropped. -/
theorem C1_scorer_alignment (nf : Vec → ℚ) (candidates preferences : Mat)
    (strategy : AggregationStrategy) (cn : Option (List ℚ))
    (store : Embeddings) (likedIds candidateIds : List ℤ)
    (hp : preferences ≠ [])
    (hn : ∀ ns, cn = some ns → ns.length = candidates.length)
    (hliked : likedIds.filterMap (idIndex store.bggIds) ≠ [])
    (hcenter : nf (rowMeanVec ((likedIds.filterMap (idIndex store.bggIds)).map
        (fun i => store.vectors.getD i []))) ≠ 0) :
    (score_candidates nf candidates preferences strategy cn).length =
        candidates.length ∧
    (∀ i, i < candidates.length →
        (score_candidates nf candidates preferences strategy cn).getD i 0 =
          aggregate strategy (similarityRow nf candidates preferences cn i)) ∧
    (store_score_candidates nf store likedIds candidateIds).map Prod.fst =
      candidateIds.filter (fun i => store.has_id i) := by
  refine ⟨score_candidates_length nf candidates preferences strategy cn hp hn, ?_,
    store_score_candidates_keys nf store likedIds candidateIds hliked hcenter⟩
  intro i hi
  by_cases hz : msize (cosine_similarity nf (candMatrixFor candidates cn) preferences) = 0
  · exfalso
    have hA := candMatrixFor_length candidates cn hn
    have hsim : (cosine_similarity nf (candMatrixFor candidates cn) preferences).length =
        candidates.length := by rw [length_cosine_similarity, hA]
    rw [msize_eq_mul (row_mem_length_cosine_similarity nf _ preferences), hsim] at hz
    rcases Nat.mul_eq_zero.mp hz with h | h
    · omega
    · exact hp (List.length_eq_zero.mp h)
  · exact score_candidates_getD nf candidates preferences strategy cn hn i hi hz

/-- Witness for C1 at a concrete instance. -/
theorem C1_scorer_alignment_witness :
    (score_candidates (fun _ => (1 : ℚ)) [[1]] [[1]] AggregationStrategy.max
        none).length = ([[(1 : ℚ)]] : Mat).length ∧
    (∀ i, i < ([[(1 : ℚ)]] : Mat).length →
        (score_candidates (fun _ => (1 : ℚ)) [[1]] [[1]] AggregationStrategy.max
            none).getD i 0 =
          aggregate AggregationStrategy.max
            (similarityRow (fun _ => (1 : ℚ)) [[1]] [[1]] none i)) ∧
    (store_score_candidates (fun _ => (1 : ℚ))
        (Embeddings.mk [7] [[1]] [1] (fun _ => none)) [7] [7]).map Prod.fst =
      ([7] : List ℤ).filter
        (fun i => (Embeddings.mk [7] [[1]] [1] (fun _ => none)).has_id i) :=
  C1_scorer_alignment (fun _ => (1 : ℚ)) [[1]] [[1]] AggregationStrategy.max none
    (Embeddings.mk [7] [[1]] [1] (fun _ => none)) [7] [7]
    (by decide) (by intro ns h; cases h) (by decide) (by decide)

lemma length_pos_of_msize_ne_zero {m : Mat} (h : msize m ≠ 0) :
    1 ≤ (m.length : ℤ) := by
  cases m with
  | nil => exact absurd rfl h
  | cons r rs => simp

lemma determine_eq_spec (L ms : ℤ) (dyn : Bool) (sf : ℚ) (hL : 1 ≤ L) (hms : 1 ≤ ms) :
    determine_centroid_count L ms dyn sf = .ok (specCentroidCount L ms dyn sf) := by
  unfold determine_centroid_count specCentroidCount
  rw [if_neg (by omega)]
  by_cases h1 : L < max 1 ms
  · rw [if_pos h1, if_pos h1]
  · rw [if_neg h1, if_neg h1]
    cases dyn with
    | true =>
      simp only [if_pos]
      congr 1
      omega
    | false =>
      simp only [Bool.false_eq_true, if_false]
      rw [show max (1 : ℤ) ms = ms by omega]

lemma build_preference_vectors_eq (nf : Vec → ℚ) (kmeans : Mat → ℤ → Mat)
    (likedMatrix : Mat) (ms : ℤ) (dyn : Bool) (sf : ℚ) (c : ℤ)
    (hsz : msize likedMatrix ≠ 0)
    (hdet : determine_centroid_count likedMatrix.length ms dyn sf = .ok c) :
    build_preference_vectors nf kmeans likedMatrix ms dyn sf =
      if c = 1 ∨ (likedMatrix.length : ℤ) ≤ c then
        .ok (normalize_rows nf [rowMeanVec likedMatrix])
      else
        (run_kmeans kmeans likedMatrix
          (max 1 (min c (max 1 ((likedMatrix.length : ℤ) / 2))))).map
          (normalize_rows nf) := by
  unfold build_preference_vectors
  rw [if_neg hsz]
  simp only [hdet]
  show (pure c >>= _) = _
  rw [pure_bind]
  split
  · rfl
  ·
    cases hr : run_kmeans kmeans likedMatrix
        (max 1 (min c (max 1 ((likedMatrix.length : ℤ) / 2)))) with
    | ok a => rfl
    | error e => rfl

/-- Claim C2: for a non-empty liked matrix with `L` rows, the resolved
centroid count is exactly the spec's formula (1 when
`L < max(1, min_samples)`, else the clamped dynamic/fixed formula); before
k-means the requested count is further capped at `max(1, L // 2)`; and when
the resolved count is 1 the builder returns exactly one preference vector:
the row-mean divided by its L2 norm `n`. -/
theorem C2_centroid_count_and_mean (nf : Vec → ℚ) (kmeans : Mat → ℤ → Mat)
    (likedMatrix : Mat) (ms : ℤ) (dyn : Bool) (sf : ℚ) (n : ℚ)
    (hms : 1 ≤ ms) (hsz : msize likedMatrix ≠ 0)
    (hn : nf (rowMeanVec likedMatrix) = n) (hn0 : 0 ≤ n)
    (hnsq : n ^ 2 = sumSq (rowMeanVec likedMatrix)) (hne : n ≠ 0) :
    determine_centroid_count likedMatrix.length ms dyn sf =
      .ok (specCentroidCount likedMatrix.length ms dyn sf) ∧
    (specCentroidCount likedMatrix.length ms dyn sf = 1 →
      build_preference_vectors nf kmeans likedMatrix ms dyn sf =
        .ok [scaleRow n (rowMeanVec likedMatrix)]) ∧
    (¬ (specCentroidCount likedMatrix.length ms dyn sf = 1 ∨
          (likedMatrix.length : ℤ) ≤ specCentroidCount likedMatrix.length ms dyn sf) →
      build_preference_vectors nf kmeans likedMatrix ms dyn sf =
        (run_kmeans kmeans likedMatrix
          (max 1 (min (specCentroidCount likedMatrix.length ms dyn sf)
            (max 1 ((likedMatrix.length : ℤ) / 2))))).map (normalize_rows nf) ∧
      max 1 (min (specCentroidCount likedMatrix.length ms dyn sf)
          (max 1 ((likedMatrix.length : ℤ) / 2))) ≤
        max 1 ((likedMatrix.length : ℤ) / 2)) := by
  have hL := length_pos_of_msize_ne_zero hsz
  have hdet := determine_eq_spec likedMatrix.length ms dyn sf hL hms
  have heq := build_preference_vectors_eq nf kmeans likedMatrix ms dyn sf
    (specCentroidCount likedMatrix.length ms dyn sf) hsz hdet
  refine ⟨hdet, ?_, ?_⟩
  · intro hc1
    rw [heq, if_pos (Or.inl hc1)]
    unfold normalize_rows normalize_rows_with
    simp only [List.map_cons, List.map_nil, List.zipWith_cons_cons, List.zipWith_nil_right]
    rw [hn]
    unfold safeDenom
    rw [if_neg hne]
  · intro hcond
    rw [heq, if_neg hcond]
    exact ⟨rfl, by omega⟩

/-- Witness for C2 at `L = 1`: one liked row `[3,4]` with norm 5. -/
theorem C2_centroid_count_and_mean_witness :
    determine_centroid_count ([[(3 : ℚ), 4]] : Mat).length 2 true (1 / 2) =
      .ok (specCentroidCount ([[(3 : ℚ), 4]] : Mat).length 2 true (1 / 2)) ∧
    (specCentroidCount ([[(3 : ℚ), 4]] : Mat).length 2 true (1 / 2) = 1 →
      build_preference_vectors (fun _ => (5 : ℚ)) (fun _ _ => []) [[3, 4]] 2 true (1 / 2) =
        .ok [scaleRow 5 (rowMeanVec [[3, 4]])]) ∧
    (¬ (specCentroidCount ([[(3 : ℚ), 4]] : Mat).length 2 true (1 / 2) = 1 ∨
          (([[(3 : ℚ), 4]] : Mat).length : ℤ) ≤
            specCentroidCount ([[(3 : ℚ), 4]] : Mat).length 2 true (1 / 2)) →
      build_preference_vectors (fun _ => (5 : ℚ)) (fun _ _ => []) [[3, 4]] 2 true (1 / 2) =
        (run_kmeans (fun _ _ => []) [[3, 4]]
          (max 1 (min (specCentroidCount ([[(3 : ℚ), 4]] : Mat).length 2 true (1 / 2))
            (max 1 ((([[(3 : ℚ), 4]] : Mat).length : ℤ) / 2))))).map
          (normalize_rows (fun _ => (5 : ℚ))) ∧
      max 1 (min (specCentroidCount ([[(3 : ℚ), 4]] : Mat).length 2 true (1 / 2))
          (max 1 ((([[(3 : ℚ), 4]] : Mat).length : ℤ) / 2))) ≤
        max 1 ((([[(3 : ℚ), 4]] : Mat).length : ℤ) / 2)) :=
  C2_centroid_count_and_mean (fun _ => (5 : ℚ)) (fun _ _ => []) [[3, 4]] 2 true (1 / 2) 5
    (by decide) (by decide) rfl (by decide)
    (by norm_num [sumSq, dot, rowMeanVec, colSum, vecAdd]) (by decide)

lemma dot_cons (a b : ℚ) (u v : Vec) : dot (a :: u) (b :: v) = a * b + dot u v := by
  simp [dot]

lemma dot_nil_left (v : Vec) : dot [] v = 0 := by simp [dot]

lemma dot_nil_right (v : Vec) : dot v [] = 0 := by simp [dot]

lemma sumSq_cons (a : ℚ) (v : Vec) : sumSq (a :: v) = a * a + sumSq v := by
  simp [sumSq, dot_cons]

lemma sumSq_nonneg (v : Vec) : 0 ≤ sumSq v := by
  induction v with
  | nil => simp [sumSq, dot]
  | cons a v ih => rw [sumSq_cons]; nlinarith [mul_self_nonneg a]

/-- Cauchy–Schwarz for list dot products (the lists may have different
lengths; `zipWith` truncates to the shorter one). -/
lemma dot_sq_le_sumSq_mul_sumSq : ∀ u v : Vec, (dot u v) ^ 2 ≤ sumSq u * sumSq v := by
  intro u
  induction u with
  | nil => intro v; simp [dot, sumSq]
  | cons a u ih =>
    intro v
    cases v with
    | nil =>
      rw [dot_nil_right]
      simp [sumSq, dot]
    | cons b v =>
      rw [dot_cons, sumSq_cons, sumSq_cons]
      have hX := sumSq_nonneg u
      have hY := sumSq_nonneg v
      have ihv := ih v
      rcases eq_or_lt_of_le hY with hY0 | hYpos
      · have hd : dot u v = 0 := by nlinarith [sq_nonneg (dot u v)]
        rw [hd]
        nlinarith [mul_nonneg hX (mul_self_nonneg b)]
      · nlinarith [sq_nonneg (a * sumSq v - b * dot u v),
          mul_nonneg (add_nonneg (mul_self_nonneg b) (le_of_lt hYpos))
            (sub_nonneg.mpr ihv), hYpos]

lemma dot_eq_zero_of_sumSq_left_eq_zero {u : Vec} (h : sumSq u = 0) (v : Vec) :
    dot u v = 0 := by
  have hcs := dot_sq_le_sumSq_mul_sumSq u v
  rw [h, zero_mul] at hcs
  nlinarith [sq_nonneg (dot u v)]

lemma dot_scaleRow (c d : ℚ) (u v : Vec) :
    dot (scaleRow c u) (scaleRow d v) = dot u v / (c * d) := by
  induction u generalizing v with
  | nil => simp [scaleRow, dot]
  | cons a u ih =>
    cases v with
    | nil => simp [scaleRow, dot]
    | cons b v =>
      simp only [scaleRow, List.map_cons] at *
      rw [dot_cons, dot_cons, ih]
      by_cases hc : c = 0
      · simp [hc]
      · by_cases hd : d = 0
        · simp [hd]
        · field_simp

lemma sumSq_scaleRow (c : ℚ) (v : Vec) :
    sumSq (scaleRow c v) = sumSq v / (c * c) := by
  rw [sumSq, dot_scaleRow, sumSq]

lemma EPS12_pos : (0 : ℚ) < EPS12 := by norm_num [EPS12]

lemma safeDenom_pos {n : ℚ} (h : 0 ≤ n) : 0 < safeDenom n := by
  unfold safeDenom
  split
  · exact EPS12_pos
  · next hne => exact lt_of_le_of_ne h (Ne.symm hne)

lemma safeDenom_ne_zero (n : ℚ) (h : 0 ≤ n) : safeDenom n ≠ 0 :=
  ne_of_gt (safeDenom_pos h)

/-- `nf` reports the genuine euclidean norm of `v`. -/
def genuineNormAt (nf : Vec → ℚ) (v : Vec) : Prop :=
  0 ≤ nf v ∧ (nf v) ^ 2 = sumSq v

/-- A normalized-by-genuine-norms cosine entry never exceeds 1. -/
lemma cos_entry_le_one (nf : Vec → ℚ) (u v : Vec)
    (hu : genuineNormAt nf u) (hv : genuineNormAt nf v) :
    dot (scaleRow (safeDenom (nf u)) u) (scaleRow (safeDenom (nf v)) v) ≤ 1 := by
  obtain ⟨hu0, husq⟩ := hu
  obtain ⟨hv0, hvsq⟩ := hv
  rw [dot_scaleRow]
  by_cases hz : nf u = 0
  · have : sumSq u = 0 := by rw [← husq, hz]; ring
    rw [dot_eq_zero_of_sumSq_left_eq_zero this v, zero_div]
    norm_num
  · by_cases hzv : nf v = 0
    · have hs : sumSq v = 0 := by rw [← hvsq, hzv]; ring
      have : dot v u = 0 := dot_eq_zero_of_sumSq_left_eq_zero hs u
      have hduv : dot u v = 0 := by
        have hcs := dot_sq_le_sumSq_mul_sumSq u v
        rw [hs, mul_zero] at hcs
        nlinarith [sq_nonneg (dot u v)]
      rw [hduv, zero_div]
      norm_num
    · have hu' : safeDenom (nf u) = nf u := by unfold safeDenom; rw [if_neg hz]
      have hv' : safeDenom (nf v) = nf v := by unfold safeDenom; rw [if_neg hzv]
      rw [hu', hv']
      have hupos : 0 < nf u := lt_of_le_of_ne hu0 (Ne.symm hz)
      have hvpos : 0 < nf v := lt_of_le_of_ne hv0 (Ne.symm hzv)
      have hpos : 0 < nf u * nf v := mul_pos hupos hvpos
      rw [div_le_one hpos]
      have hcs := dot_sq_le_sumSq_mul_sumSq u v
      rw [← husq, ← hvsq] at hcs
      nlinarith

lemma le_foldl_max (xs : List ℚ) : ∀ a : ℚ, a ≤ xs.foldl max a := by
  induction xs with
  | nil => intro a; simp
  | cons x xs ih =>
    intro a
    calc a ≤ max a x := le_max_left a x
    _ ≤ xs.foldl max (max a x) := ih (max a x)

lemma mem_le_foldl_max (xs : List ℚ) : ∀ (a x : ℚ), x ∈ xs → x ≤ xs.foldl max a := by
  induction xs with
  | nil => intro a x hx; cases hx
  | cons y ys ih =>
    intro a x hx
    rcases List.mem_cons.mp hx with rfl | hmem
    · calc x ≤ max a x := le_max_right a x
      _ ≤ ys.foldl max (max a x) := le_foldl_max ys (max a x)
    · exact ih (max a y) x hmem

lemma foldl_max_le (xs : List ℚ) : ∀ (a b : ℚ), a ≤ b → (∀ x ∈ xs, x ≤ b) →
    xs.foldl max a ≤ b := by
  induction xs with
  | nil => intro a b hab _; simpa
  | cons y ys ih =>
    intro a b hab hall
    exact ih (max a y) b (max_le hab (hall y (by simp)))
      (fun x hx => hall x (by simp [hx]))

lemma rowMax_eq_one {r : List ℚ} (hmem : (1 : ℚ) ∈ r) (hle : ∀ x ∈ r, x ≤ 1) :
    rowMax r = 1 := by
  cases r with
  | nil => cases hmem
  | cons x xs =>
    have hrw : rowMax (x :: xs) = xs.foldl max x := rfl
    rw [hrw]
    refine le_antisymm (foldl_max_le xs x 1 (hle x (by simp))
      (fun y hy => hle y (by simp [hy]))) ?_
    rcases List.mem_cons.mp hmem with h1 | h1
    · rw [h1]
      exact le_foldl_max xs x
    · exact mem_le_foldl_max xs x 1 h1

lemma zipWith_map_self {α β γ : Type} (f : β → α → γ) (g : α → β) :
    ∀ l : List α, List.zipWith f (l.map g) l = l.map (fun x => f (g x) x)
  | [] => rfl
  | x :: xs => by
    simp only [List.map_cons, List.zipWith_cons_cons]
    rw [zipWith_map_self f g xs]

lemma normalize_rows_eq_map (nf : Vec → ℚ) (m : Mat) :
    normalize_rows nf m = m.map (fun r => scaleRow (safeDenom (nf r)) r) := by
  unfold normalize_rows normalize_rows_with
  exact zipWith_map_self _ _ m

lemma scaleRow_one (v : Vec) : scaleRow 1 v = v := by
  simp [scaleRow]

lemma sumSq_ne_zero_of_sq {v : Vec} {n : ℚ} (hn : 0 < n) (hsq : n ^ 2 = sumSq v) :
    v ≠ [] := by
  intro hv
  rw [hv] at hsq
  simp [sumSq, dot] at hsq
  nlinarith

/-- Under MAX aggregation, a candidate identical (up to the supplied norm) to
one of the preference centroids scores exactly 1, provided `nf` reports
genuine norms on the rows involved. -/
lemma score_max_identical (nf : Vec → ℚ) (v : Vec) (ps : Mat) (n : ℚ)
    (hn : 0 < n) (hsq : n ^ 2 = sumSq v) (hmem : v ∈ ps)
    (hgu : genuineNormAt nf (scaleRow n v))
    (hgp : ∀ p ∈ ps, genuineNormAt nf p) :
    score_candidates nf [v] ps AggregationStrategy.max (some [n]) = [1] := by
  have hne : n ≠ 0 := ne_of_gt hn
  have hsafe : safeDenom n = n := by unfold safeDenom; rw [if_neg hne]
  have hvne : v ≠ [] := sumSq_ne_zero_of_sq hn hsq
  have hu : normalize_rows_with [n] [v] = [scaleRow n v] := by
    simp [normalize_rows_with, hsafe]
  have husq : sumSq (scaleRow n v) = 1 := by
    rw [sumSq_scaleRow, ← hsq]
    field_simp
    ring
  have hnfu : nf (scaleRow n v) = 1 := by
    obtain ⟨h0, hsq2⟩ := hgu
    rw [husq] at hsq2
    have h1 : nf (scaleRow n v) ≤ 1 := by nlinarith
    have h2 : 1 ≤ nf (scaleRow n v) := by nlinarith
    linarith
  have hulen : (scaleRow n v).length = v.length := by simp [scaleRow]
  have hpsne : ps ≠ [] := List.ne_nil_of_mem hmem
  have hmsA : msize [scaleRow n v] ≠ 0 := by
    simp only [msize, List.map_cons, List.map_nil, List.sum_cons, List.sum_nil]
    rw [hulen]
    have : v.length ≠ 0 := fun h => hvne (List.length_eq_zero.mp h)
    omega
  have hmsP : msize ps ≠ 0 := by
    have hlv : v.length ∈ ps.map List.length := List.mem_map_of_mem List.length hmem
    have hle : v.length ≤ (ps.map List.length).sum :=
      List.single_le_sum (fun x _ => Nat.zero_le x) _ hlv
    have : v.length ≠ 0 := fun h => hvne (List.length_eq_zero.mp h)
    unfold msize
    omega
  have hnru : normalize_rows nf [scaleRow n v] = [scaleRow n v] := by
    rw [normalize_rows_eq_map]
    simp only [List.map_cons, List.map_nil, hnfu]
    rw [show safeDenom 1 = 1 by unfold safeDenom; norm_num, scaleRow_one]
  have hsim : cosine_similarity nf (normalize_rows_with [n] [v]) ps =
      [(normalize_rows nf ps).map (dot (scaleRow n v))] := by
    rw [hu]
    unfold cosine_similarity
    rw [if_neg (by push_neg; exact ⟨hmsA, hmsP⟩), hnru]
    rfl
  have hrow : (normalize_rows nf ps).map (dot (scaleRow n v)) =
      ps.map (fun p => dot (scaleRow n v) (scaleRow (safeDenom (nf p)) p)) := by
    rw [normalize_rows_eq_map, List.map_map]
    rfl
  have hgenu : genuineNormAt nf (scaleRow n v) := hgu
  have hle1 : ∀ x ∈ ps.map (fun p => dot (scaleRow n v) (scaleRow (safeDenom (nf p)) p)),
      x ≤ 1 := by
    intro x hx
    obtain ⟨p, hp, rfl⟩ := List.mem_map.mp hx
    have := cos_entry_le_one nf (scaleRow n v) p hgenu (hgp p hp)
    rw [hnfu] at this
    rw [show safeDenom 1 = 1 by unfold safeDenom; norm_num, scaleRow_one] at this
    exact this
  have hnfv : nf v = n := by
    obtain ⟨h0, hsq2⟩ := hgp v hmem
    rw [← hsq] at hsq2
    have h1 : nf v ≤ n := by nlinarith
    have h2 : n ≤ nf v := by nlinarith
    linarith
  have hone : (1 : ℚ) ∈ ps.map (fun p => dot (scaleRow n v) (scaleRow (safeDenom (nf p)) p)) := by
    refine List.mem_map.mpr ⟨v, hmem, ?_⟩
    rw [hnfv, hsafe, ← sumSq]
    exact husq
  rw [score_candidates_eq]
  simp only [candMatrixFor]
  rw [hsim]
  have hmsS : msize [(normalize_rows nf ps).map (dot (scaleRow n v))] ≠ 0 := by
    simp only [msize, List.map_cons, List.map_nil, List.sum_cons, List.sum_nil,
      List.length_map, length_normalize_rows]
    intro hc
    exact hmsP (by unfold msize; rcases List.length_eq_zero.mp (by omega : ps.length = 0) with h; simp [h])
  rw [if_neg hmsS]
  simp only [List.map_cons, List.map_nil]
  unfold aggregate
  rw [hrow]
  rw [rowMax_eq_one hone hle1]

lemma sortByDesc_pair {α : Type} (key : α → ℚ) (x y : α) :
    sortByDesc key [x, y] = if key y > key x then [y, x] else [x, y] := by
  simp [sortByDesc, insertByDesc]

lemma recommend_scenario (nf : Vec → ℚ) (kmeans : Mat → ℤ → Mat) (nB : ℚ)
    (hnB : 0 < nB) (hnf1 : nf [1, 0] = 1) (hnn : ∀ w, 0 ≤ nf w) :
    ∃ sB : ℚ,
      recommend nf kmeans (PreferenceClusterConfig.mk 2 true (1 / 2))
        AggregationStrategy.max (scenarioStore nB)
        [1] 2 = .ok [ScoredGameId.mk sB 2, ScoredGameId.mk 0 3] ∧ 0 < sB := by
  have hsafe1 : safeDenom 1 = 1 := by norm_num [safeDenom]
  have hprefs : build_preference_vectors nf kmeans [[1, 0]] 2 true (1 / 2) =
      .ok [[(1 : ℚ), 0]] := by
    have heq := build_preference_vectors_eq nf kmeans [[1, 0]] 2 true (1 / 2) 1
      (by decide) rfl
    rw [if_pos (Or.inl rfl)] at heq
    rw [heq]
    have hmean : rowMeanVec [[(1 : ℚ), 0]] = [1, 0] := by
      norm_num [rowMeanVec, colSum]
    rw [hmean, normalize_rows_eq_map]
    simp only [List.map_cons, List.map_nil, hnf1, hsafe1, scaleRow_one]
  have hsafenB : safeDenom nB = nB := by unfold safeDenom; rw [if_neg (ne_of_gt hnB)]
  set uB : Vec := scaleRow nB [9 / 10, 1 / 10] with huB
  set dB : ℚ := safeDenom (nf uB) with hdB
  have hdBpos : 0 < dB := safeDenom_pos (hnn uB)
  have hsB : 0 < 9 / 10 / nB / dB :=
    div_pos (div_pos (by norm_num) hnB) hdBpos
  have hdot1 : dot (scaleRow dB uB) [1, 0] = 9 / 10 / nB / dB := by
    simp [dot, scaleRow, huB]
  have hdot2 : dot (scaleRow (safeDenom (nf [0, 1])) [0, 1]) [1, 0] = 0 := by
    simp [dot, scaleRow]
  have hcos : cosine_similarity nf (normalize_rows_with [nB, 1] [[9 / 10, 1 / 10], [0, 1]])
      [[(1 : ℚ), 0]] = [[9 / 10 / nB / dB], [0]] := by
    have hA : normalize_rows_with [nB, 1] [[9 / 10, 1 / 10], [0, 1]] =
        [uB, [0, 1]] := by
      simp [normalize_rows_with, hsafenB, hsafe1, scaleRow_one, huB]
    rw [hA]
    unfold cosine_similarity
    rw [if_neg (by simp [msize, huB, scaleRow])]
    rw [normalize_rows_eq_map, normalize_rows_eq_map]
    simp only [List.map_cons, List.map_nil, hnf1, hsafe1, scaleRow_one]
    unfold matmulT
    simp only [List.map_cons, List.map_nil]
    rw [← hdB, hdot1, hdot2]
  have hscore : score_candidates nf [[9 / 10, 1 / 10], [0, 1]] [[(1 : ℚ), 0]]
      AggregationStrategy.max (some [nB, 1]) = [9 / 10 / nB / dB, 0] := by
    rw [score_candidates_eq]
    simp only [candMatrixFor]
    rw [hcos]
    rw [if_neg (by simp [msize])]
    rfl
  refine ⟨9 / 10 / nB / dB, ?_, hsB⟩
  unfold recommend
  rw [if_neg (by decide : ¬ (2 : ℤ) ≤ 0)]
  have hfil : List.filter (fun g => (scenarioStore nB).has_id g) [1] = [1] := rfl
  have hlm : List.map (fun i => (scenarioStore nB).vectors.getD i [])
      (List.filterMap (idIndex (scenarioStore nB).bggIds) [1]) = [[1, 0]] := rfl
  have hfc : filter_candidates (scenarioStore nB) [1] =
      ([2, 3], [[9 / 10, 1 / 10], [0, 1]], [nB, 1]) := rfl
  have hne1 : ¬ (([1] : List ℤ) = []) := by decide
  rw [hfil, if_neg hne1]
  simp only []
  rw [hlm, hprefs]
  show (pure [[(1 : ℚ), 0]] >>= _) = _
  rw [pure_bind, hfc]
  rw [show (([2, 3] : List ℤ), ([[(9 : ℚ) / 10, 1 / 10], [0, 1]] : Mat),
      ([nB, 1] : List ℚ)).1 = ([2, 3] : List ℤ) from rfl]
  rw [show (([2, 3] : List ℤ), ([[(9 : ℚ) / 10, 1 / 10], [0, 1]] : Mat),
      ([nB, 1] : List ℚ)).2.1 = ([[(9 : ℚ) / 10, 1 / 10], [0, 1]] : Mat) from rfl]
  rw [show (([2, 3] : List ℤ), ([[(9 : ℚ) / 10, 1 / 10], [0, 1]] : Mat),
      ([nB, 1] : List ℚ)).2.2 = ([nB, 1] : List ℚ) from rfl]
  rw [hscore]
  rw [show List.zipWith (fun cid s => ScoredGameId.mk s cid) ([2, 3] : List ℤ)
      [9 / 10 / nB / dB, 0] =
      [ScoredGameId.mk (9 / 10 / nB / dB) 2, ScoredGameId.mk 0 3] from rfl]
  rw [sortByDesc_pair]
  rw [if_neg (not_lt.mpr (le_of_lt hsB))]
  rfl



/-- Claim C3: candidate scores are consistent with pairwise cosine similarity
under the chosen aggregation mode: the `i`-th score is the aggregation of the
`i`-th cosine-similarity row; a non-zero candidate identical (up to its
supplied norm) to a centroid scores exactly 1.0 under MAX; and in the spec
scenario (liked A = `[1,0]`; candidates B = `[9/10,1/10]`, C = `[0,1]`; MAX
aggregation) the ranking is `[B, C]` with `score B > score C = 0`. -/
theorem C3_cosine_consistency (nf nf2 : Vec → ℚ) (v : Vec) (ps : Mat) (n : ℚ)
    (kmeans : Mat → ℤ → Mat) (nB : ℚ)
    (hn : 0 < n) (hsq : n ^ 2 = sumSq v) (hmem : v ∈ ps)
    (hgu : genuineNormAt nf (scaleRow n v))
    (hgp : ∀ p ∈ ps, genuineNormAt nf p)
    (hnB : 0 < nB) (hnf1 : nf2 [1, 0] = 1) (hnn : ∀ w, 0 ≤ nf2 w) :
    (∀ (candidates preferences : Mat) (strategy : AggregationStrategy)
        (cn : Option (List ℚ)),
      (∀ ns, cn = some ns → ns.length = candidates.length) →
      ∀ i, i < candidates.length →
      msize (cosine_similarity nf (candMatrixFor candidates cn) preferences) ≠ 0 →
      (score_candidates nf candidates preferences strategy cn).getD i 0 =
        aggregate strategy (similarityRow nf candidates preferences cn i)) ∧
    score_candidates nf [v] ps AggregationStrategy.max (some [n]) = [1] ∧
    (∃ sB : ℚ,
      recommend nf2 kmeans (PreferenceClusterConfig.mk 2 true (1 / 2))
        AggregationStrategy.max (scenarioStore nB) [1] 2 =
        .ok [ScoredGameId.mk sB 2, ScoredGameId.mk 0 3] ∧ 0 < sB) :=
  ⟨fun candidates preferences strategy cn hns i hi hnz =>
      score_candidates_getD nf candidates preferences strategy cn hns i hi hnz,
   score_max_identical nf v ps n hn hsq hmem hgu hgp,
   recommend_scenario nf2 kmeans nB hnB hnf1 hnn⟩

/-- Witness for C3. -/
theorem C3_cosine_consistency_witness :
    score_candidates (fun w => if w = [1, 0] then (1 : ℚ) else 0) [[1, 0]] [[1, 0]]
      AggregationStrategy.max (some [1]) = [1] ∧
    (∃ sB : ℚ,
      recommend (fun w => if w = [1, 0] then (1 : ℚ) else 0) (fun _ _ => [])
        (PreferenceClusterConfig.mk 2 true (1 / 2))
        AggregationStrategy.max (scenarioStore 1) [1] 2 =
        .ok [ScoredGameId.mk sB 2, ScoredGameId.mk 0 3] ∧ 0 < sB) := by
  have h := C3_cosine_consistency (fun w => if w = [1, 0] then (1 : ℚ) else 0)
    (fun w => if w = [1, 0] then (1 : ℚ) else 0) [1, 0] [[1, 0]] 1 (fun _ _ => []) 1
    (by norm_num) (by norm_num [sumSq, dot]) (by norm_num)
    (by norm_num [genuineNormAt, scaleRow, sumSq, dot])
    (by
      intro p hp
      rw [List.mem_singleton] at hp
      subst hp
      norm_num [genuineNormAt, sumSq, dot])
    (by norm_num) (by norm_num)
    (by
      intro w
      dsimp only
      split <;> norm_num)
  exact ⟨h.2.1, h.2.2⟩

lemma insertByDesc_perm {α : Type} (key : α → ℚ) (x : α) :
    ∀ l : List α, (insertByDesc key x l).Perm (x :: l)
  | [] => List.Perm.refl [x]
  | y :: ys => by
    unfold insertByDesc
    split
    · exact (List.Perm.cons y (insertByDesc_perm key x ys)).trans
        (List.Perm.swap x y ys)
    · exact List.Perm.refl _

lemma sortByDesc_perm {α : Type} (key : α → ℚ) :
    ∀ l : List α, (sortByDesc key l).Perm l
  | [] => List.Perm.refl []
  | x :: xs => by
    unfold sortByDesc
    exact (insertByDesc_perm key x (sortByDesc key xs)).trans
      (List.Perm.cons x (sortByDesc_perm key xs))

lemma insertByDesc_sorted {α : Type} (key : α → ℚ) (x : α) :
    ∀ l : List α, l.Pairwise (fun a b => key b ≤ key a) →
      (insertByDesc key x l).Pairwise (fun a b => key b ≤ key a)
  | [], _ => by simp [insertByDesc]
  | y :: ys, h => by
    unfold insertByDesc
    obtain ⟨hy, hys⟩ := List.pairwise_cons.mp h
    split
    · next hgt =>
      refine List.pairwise_cons.mpr ⟨?_, insertByDesc_sorted key x ys hys⟩
      intro z hz
      have hz2 := (insertByDesc_perm key x ys).mem_iff.mp hz
      rcases List.mem_cons.mp hz2 with rfl | hmem
      · exact le_of_lt hgt
      · exact hy z hmem
    · next hle =>
      refine List.pairwise_cons.mpr ⟨?_, h⟩
      intro z hz
      rcases List.mem_cons.mp hz with rfl | hmem
      · exact not_lt.mp hle
      · exact le_trans (hy z hmem) (not_lt.mp hle)

lemma sortByDesc_sorted {α : Type} (key : α → ℚ) :
    ∀ l : List α, (sortByDesc key l).Pairwise (fun a b => key b ≤ key a)
  | [] => List.Pairwise.nil
  | x :: xs => insertByDesc_sorted key x (sortByDesc key xs) (sortByDesc_sorted key xs)

lemma mem_zipWith_mk {ids : List ℤ} {scores : List ℚ} {x : ScoredGameId} :
    x ∈ List.zipWith (fun cid s => ScoredGameId.mk s cid) ids scores →
      x.bggId ∈ ids := by
  induction ids generalizing scores with
  | nil => intro h; simp at h
  | cons i is ih =>
    intro h
    cases scores with
    | nil => simp at h
    | cons s ss =>
      rcases List.mem_cons.mp h with rfl | hmem
      · simp
      · exact List.mem_cons.mpr (Or.inr (ih hmem))

lemma filter_candidates_ids_not_liked (embedding : Embeddings) (likedIds : List ℤ)
    {x : ℤ} (hx : x ∈ (filter_candidates embedding likedIds).1) :
    x ∉ likedIds ∧ x ∈ embedding.bggIds := by
  unfold filter_candidates at hx
  simp only [List.mem_map, List.mem_filter, List.mem_range] at hx
  obtain ⟨i, ⟨hi, hpred⟩, rfl⟩ := hx
  refine ⟨by simpa using hpred, ?_⟩
  rw [List.getD_eq_getElem _ _ hi]
  exact List.getElem_mem hi

/-- The shape of every successful `recommend` run: the output is the first
`num_results` elements of the stable score-descending sort of the
(candidate id, score) zip. -/
lemma recommend_ok_shape (nf : Vec → ℚ) (kmeans : Mat → ℤ → Mat)
    (cfg : PreferenceClusterConfig) (agg : AggregationStrategy)
    (embedding : Embeddings) (likedGames : List ℤ) (numResults : ℤ)
    (out : List ScoredGameId)
    (h : recommend nf kmeans cfg agg embedding likedGames numResults = .ok out) :
    ∃ preferenceVectors : Mat,
      out = (sortByDesc ScoredGameId.score
        (List.zipWith (fun cid s => ScoredGameId.mk s cid)
          (filter_candidates embedding
            (likedGames.filter (fun g => embedding.has_id g))).1
          (score_candidates nf
            (filter_candidates embedding
              (likedGames.filter (fun g => embedding.has_id g))).2.1
            preferenceVectors agg
            (some (filter_candidates embedding
              (likedGames.filter (fun g => embedding.has_id g))).2.2)))).take
        numResults.toNat := by
  unfold recommend at h
  by_cases h0 : numResults ≤ 0
  · rw [if_pos h0] at h; cases h
  · rw [if_neg h0] at h
    by_cases hl : likedGames.filter (fun g => embedding.has_id g) = []
    · rw [if_pos hl] at h; cases h
    · rw [if_neg hl] at h
      simp only [] at h
      cases hb : build_preference_vectors nf kmeans
          ((List.filterMap (idIndex embedding.bggIds)
            (likedGames.filter (fun g => embedding.has_id g))).map
            (fun i => embedding.vectors.getD i []))
          cfg.minSamplesPerCentroid cfg.dynamicCentroids
          cfg.centroidScalingFactor with
      | error e =>
        rw [hb] at h
        cases h
      | ok prefs =>
        rw [hb] at h
        refine ⟨prefs, ?_⟩
        exact (Except.ok.inj h).symm

/-- Claim C4 (amended): every successful `recommend` output has at most
`num_results` entries, contains no liked id, and is sorted by score
descending (ties keep the candidates' embedding order — the stable sort has
no id tie-break). -/
theorem C4_orchestrator_output (nf : Vec → ℚ) (kmeans : Mat → ℤ → Mat)
    (cfg : PreferenceClusterConfig) (agg : AggregationStrategy)
    (embedding : Embeddings) (likedGames : List ℤ) (numResults : ℤ)
    (out : List ScoredGameId)
    (h : recommend nf kmeans cfg agg embedding likedGames numResults = .ok out) :
    out.length ≤ numResults.toNat ∧
    (∀ s ∈ out, s.bggId ∉ likedGames) ∧
    out.Pairwise (fun a b => b.score ≤ a.score) := by
  obtain ⟨prefs, hout⟩ := recommend_ok_shape nf kmeans cfg agg embedding
    likedGames numResults out h
  subst hout
  refine ⟨List.length_take_le _ _, ?_, ?_⟩
  · intro s hs hliked
    have hs2 := (List.take_sublist _ _).subset hs
    have hs3 := (sortByDesc_perm ScoredGameId.score _).mem_iff.mp hs2
    have hid := mem_zipWith_mk hs3
    obtain ⟨hnl, hmem⟩ := filter_candidates_ids_not_liked embedding _ hid
    exact hnl (List.mem_filter.mpr ⟨hliked, by simpa [Embeddings.has_id] using hmem⟩)
  · exact (sortByDesc_sorted ScoredGameId.score _).sublist (List.take_sublist _ _)

/-- Witness for C4 at a concrete instance (three identical vectors, one
liked). -/
theorem C4_orchestrator_output_witness :
    ([ScoredGameId.mk 1 5, ScoredGameId.mk 1 2] : List ScoredGameId).length ≤
        (2 : ℤ).toNat ∧
    (∀ s ∈ ([ScoredGameId.mk 1 5, ScoredGameId.mk 1 2] : List ScoredGameId),
        s.bggId ∉ ([10] : List ℤ)) ∧
    ([ScoredGameId.mk 1 5, ScoredGameId.mk 1 2] : List ScoredGameId).Pairwise
      (fun a b => b.score ≤ a.score) :=
  C4_orchestrator_output (fun _ => (1 : ℚ)) (fun _ _ => [])
    (PreferenceClusterConfig.mk 2 true (1 / 2)) AggregationStrategy.max
    (Embeddings.mk [10, 5, 2] [[1, 0], [1, 0], [1, 0]] [1, 1, 1] (fun _ => none))
    [10] 2 [ScoredGameId.mk 1 5, ScoredGameId.mk 1 2] (by with_unfolding_all decide)

/-- Counterexample to C4 as stated: with equal scores the output keeps the
embedding order `[5, 2]`, not ascending id order `[2, 5]` — the sort has no
id tie-break. -/
theorem C4_tie_break_counterexample :
    recommend (fun _ => (1 : ℚ)) (fun _ _ => [])
      (PreferenceClusterConfig.mk 2 true (1 / 2)) AggregationStrategy.max
      (Embeddings.mk [10, 5, 2] [[1, 0], [1, 0], [1, 0]] [1, 1, 1] (fun _ => none))
      [10] 2 = .ok [ScoredGameId.mk 1 5, ScoredGameId.mk 1 2] ∧
    ¬ ([ScoredGameId.mk (1 : ℚ) 5, ScoredGameId.mk 1 2] : List ScoredGameId).Pairwise
        (fun a b => b.score < a.score ∨ (a.score = b.score ∧ a.bggId ≤ b.bggId)) := by
  constructor
  · with_unfolding_all decide
  · intro hp
    have := (List.pairwise_cons.mp hp).1 (ScoredGameId.mk 1 2) (by simp)
    rcases this with hlt | ⟨_, hle⟩
    · exact absurd hlt (by norm_num)
    · exact absurd hle (by norm_num)

/-- Claim C7 (amended): liked ids absent from the embedding make
`generate_recommendations` fail with a client-correctable INPUT error
(400-class), not an availability error; the availability class (503) is
reserved for a missing embedding store (and empty scorer output). -/
theorem C7_missing_liked_is_input_error (candidates : List Boardgame)
    (s : Embeddings) (likedGames : List ℤ)
    (hc : candidates ≠ [])
    (hm : likedGames.filter (fun g => ¬ s.has_id g) ≠ []) :
    generate_recommendations_checks candidates (some s) likedGames =
      .error (.inputError
        "Liked games not found in embeddings. Choose liked games that exist in the dataset.") ∧
    generate_recommendations_checks candidates none likedGames =
      .error (.unavailableError
        "Embedding store is not available; train and load embeddings before requesting recommendations.") := by
  constructor
  · unfold generate_recommendations_checks
    rw [if_neg hc]
    simp only []
    rw [if_pos hm]
  · unfold generate_recommendations_checks
    rw [if_neg hc]

/-- Witness for C7 at a concrete instance. -/
theorem C7_missing_liked_is_input_error_witness :
    generate_recommendations_checks [Boardgame.mk 1 "g" [] [] []]
      (some (Embeddings.mk [1] [[1]] [1] (fun _ => none))) [99] =
      .error (.inputError
        "Liked games not found in embeddings. Choose liked games that exist in the dataset.") ∧
    generate_recommendations_checks [Boardgame.mk 1 "g" [] [] []]
      (none : Option Embeddings) [99] =
      .error (.unavailableError
        "Embedding store is not available; train and load embeddings before requesting recommendations.") :=
  C7_missing_liked_is_input_error [Boardgame.mk 1 "g" [] [] []]
    (Embeddings.mk [1] [[1]] [1] (fun _ => none)) [99]
    (by decide) (by decide)

/-- Counterexample to C7 as stated: a liked id absent from the embedding
(with candidates and store present) produces the input-error class, not the
availability-error class the claim requires. -/
theorem C7_availability_counterexample :
    resultIsInputError (generate_recommendations_checks [Boardgame.mk 1 "g" [] [] []]
      (some (Embeddings.mk [1] [[1]] [1] (fun _ => none))) [99]) = true ∧
    resultIsAvailabilityError (generate_recommendations_checks
      [Boardgame.mk 1 "g" [] [] []]
      (some (Embeddings.mk [1] [[1]] [1] (fun _ => none))) [99]) = false := by
  constructor <;> decide

lemma filter_mem_filter_eq (records : List Boardgame) (ids : List ℤ) (i : ℤ)
    (hi : i ∈ ids) :
    (records.filter (fun r => r.id ∈ ids)).filter (fun r => r.id = i) =
      records.filter (fun r => r.id = i) := by
  induction records with
  | nil => rfl
  | cons r rs ih =>
    by_cases h1 : r.id = i
    · have h2 : r.id ∈ ids := h1 ▸ hi
      rw [List.filter_cons_of_pos (by simpa using h2),
        List.filter_cons_of_pos (by simpa using h1),
        List.filter_cons_of_pos (by simpa using h1), ih]
    · by_cases h2 : r.id ∈ ids
      · rw [List.filter_cons_of_pos (by simpa using h2),
          List.filter_cons_of_neg (by simpa using h1),
          List.filter_cons_of_neg (by simpa using h1), ih]
      · rw [List.filter_cons_of_neg (by simpa using h2),
          List.filter_cons_of_neg (by simpa using h1)]
        exact ih

lemma getLast?_filter_eq_find? (l : List Boardgame)
    (hnd : (l.map Boardgame.id).Nodup) (i : ℤ) :
    (l.filter (fun r => r.id = i)).getLast? = l.find? (fun r => r.id = i) := by
  induction l with
  | nil => rfl
  | cons r rs ih =>
    rw [List.map_cons, List.nodup_cons] at hnd
    obtain ⟨hni, hnd2⟩ := hnd
    by_cases h1 : r.id = i
    · have hfe : rs.filter (fun r => r.id = i) = [] := by
        rw [List.filter_eq_nil_iff]
        intro a ha hc
        rw [decide_eq_true_eq] at hc
        exact hni (by rw [h1, ← hc]; exact List.mem_map_of_mem Boardgame.id ha)
      rw [List.filter_cons_of_pos (by simpa using h1), hfe,
        List.find?_cons_of_pos _ (by simpa using h1)]
      rfl
    · rw [List.filter_cons_of_neg (by simpa using h1),
        List.find?_cons_of_neg _ (by simpa using h1)]
      exact ih hnd2

/-- Claim C10: `get_many` returns, in exactly the requested order, the unique
record for each requested id that has one, silently omitting the others; the
empty request yields the empty list. -/
theorem C10_get_many_order (records : List Boardgame) (ids : List ℤ)
    (hnd : (records.map Boardgame.id).Nodup) :
    get_many records [] = [] ∧
    get_many records ids =
      ids.filterMap (fun i => records.find? (fun r => r.id = i)) := by
  refine ⟨rfl, ?_⟩
  unfold get_many
  by_cases h0 : ids = []
  · rw [if_pos h0, h0]
    rfl
  · rw [if_neg h0]
    refine List.filterMap_congr ?_
    intro i hi
    rw [filter_mem_filter_eq records ids i hi,
      getLast?_filter_eq_find? records hnd i]

/-- Witness for C10 at a concrete instance: ids `[3, 99, 1]` against records
`1, 2, 3` return record 3 then record 1, omitting the absent id 99. -/
theorem C10_get_many_order_witness :
    get_many [Boardgame.mk 1 "a" [] [] [], Boardgame.mk 2 "b" [] [] [],
        Boardgame.mk 3 "c" [] [] []] [] = [] ∧
    get_many [Boardgame.mk 1 "a" [] [] [], Boardgame.mk 2 "b" [] [] [],
        Boardgame.mk 3 "c" [] [] []] [3, 99, 1] =
      ([3, 99, 1] : List ℤ).filterMap
        (fun i => [Boardgame.mk 1 "a" [] [] [], Boardgame.mk 2 "b" [] [] [],
          Boardgame.mk 3 "c" [] [] []].find? (fun r => r.id = i)) :=
  C10_get_many_order
    [Boardgame.mk 1 "a" [] [] [], Boardgame.mk 2 "b" [] [] [],
      Boardgame.mk 3 "c" [] [] []] [3, 99, 1] (by decide)

lemma safeDenom_ne_zero_all (n : ℚ) : safeDenom n ≠ 0 := by
  unfold safeDenom
  split
  · exact ne_of_gt EPS12_pos
  · next h => exact h

/-- Claim C8: cosine scoring is total on zero-norm rows.  A zero norm is
replaced by the negligible non-zero `1e-12`; the substituted denominator is
never zero, each normalized entry is a genuine quotient (entry × denominator
recovers the original entry), and each store score is the cosine quotient by
a provably non-zero denominator — so every returned score is a well-defined
(finite) rational. -/
theorem C8_zero_norm_totality (norms : List ℚ) (m : Mat) (i j : ℕ)
    (nf : Vec → ℚ) (store : Embeddings) (likedIds candidateIds : List ℤ)
    (p : ℤ × ℚ)
    (hi1 : i < norms.length) (hi2 : i < m.length)
    (hp : p ∈ store_score_candidates nf store likedIds candidateIds) :
    safeDenom 0 = EPS12 ∧ EPS12 ≠ 0 ∧ (∀ n : ℚ, safeDenom n ≠ 0) ∧
    ((normalize_rows_with norms m).getD i []).getD j 0 *
        safeDenom (norms.getD i 0) = (m.getD i []).getD j 0 ∧
    (∃ idx : ℕ, idx ∈ candidateIds.filterMap (idIndex store.bggIds) ∧
      safeDenom (store.norms.getD idx 0 *
        nf (rowMeanVec ((likedIds.filterMap (idIndex store.bggIds)).map
          (fun k => store.vectors.getD k [])))) ≠ 0 ∧
      p = (store.bggIds.getD idx 0,
        dot (store.vectors.getD idx [])
          (rowMeanVec ((likedIds.filterMap (idIndex store.bggIds)).map
            (fun k => store.vectors.getD k []))) /
        safeDenom (store.norms.getD idx 0 *
          nf (rowMeanVec ((likedIds.filterMap (idIndex store.bggIds)).map
            (fun k => store.vectors.getD k [])))))) := by
  refine ⟨by unfold safeDenom; rw [if_pos rfl], ne_of_gt EPS12_pos,
    safeDenom_ne_zero_all, ?_, ?_⟩
  · have hlen : i < (normalize_rows_with norms m).length := by
      rw [length_normalize_rows_with]
      omega
    rw [List.getD_eq_getElem _ _ hlen]
    unfold normalize_rows_with
    rw [List.getElem_zipWith]
    by_cases hj : j < (m[i]).length
    · rw [List.getD_eq_getElem _ _ (by simpa [scaleRow] using hj),
        List.getD_eq_getElem _ _ hi2, List.getD_eq_getElem _ _ hj]
      unfold scaleRow
      rw [List.getElem_map]
      rw [List.getD_eq_getElem _ _ hi1]
      exact div_mul_cancel₀ _ (safeDenom_ne_zero_all _)
    · rw [List.getD_eq_getElem _ _ hi2]
      simp only [List.getD_eq_getElem?_getD]
      rw [List.getElem?_eq_none (show (scaleRow (safeDenom (norms[i])) (m[i])).length ≤ j by
          simpa [scaleRow] using hj),
        List.getElem?_eq_none (show (m[i]).length ≤ j by simpa using hj)]
      simp
  · unfold store_score_candidates at hp
    by_cases h1 : likedIds.filterMap (idIndex store.bggIds) = []
    · rw [if_pos h1] at hp
      cases hp
    · rw [if_neg h1] at hp
      simp only [] at hp
      by_cases h2 : candidateIds.filterMap (idIndex store.bggIds) = []
      · rw [if_pos h2] at hp
        cases hp
      · rw [if_neg h2] at hp
        by_cases h3 : nf (rowMeanVec ((likedIds.filterMap (idIndex store.bggIds)).map
            (fun k => store.vectors.getD k []))) = 0
        · rw [if_pos h3] at hp
          cases hp
        · rw [if_neg h3] at hp
          obtain ⟨idx, hidx, rfl⟩ := List.mem_map.mp hp
          exact ⟨idx, hidx, safeDenom_ne_zero_all _, rfl⟩

/-- Witness for C8 at a concrete instance (a zero-norm row among the
normalized rows; one liked and one candidate id in the store). -/
theorem C8_zero_norm_totality_witness :
    safeDenom 0 = EPS12 ∧ EPS12 ≠ 0 ∧ (∀ n : ℚ, safeDenom n ≠ 0) ∧
    ((normalize_rows_with [0] [[3]]).getD 0 []).getD 0 0 * safeDenom (([0] : List ℚ).getD 0 0) =
      (([[3]] : Mat).getD 0 []).getD 0 0 ∧
    (∃ idx : ℕ, idx ∈ ([7] : List ℤ).filterMap
        (idIndex (Embeddings.mk [7] [[2]] [2] (fun _ => none)).bggIds) ∧
      safeDenom ((Embeddings.mk [7] [[2]] [2] (fun _ => none)).norms.getD idx 0 *
        (fun _ => (1 : ℚ))
          (rowMeanVec ((([7] : List ℤ).filterMap
              (idIndex (Embeddings.mk [7] [[2]] [2] (fun _ => none)).bggIds)).map
            (fun k => (Embeddings.mk [7] [[2]] [2] (fun _ => none)).vectors.getD k [])))) ≠ 0 ∧
      ((7 : ℤ), (2 : ℚ)) = ((Embeddings.mk [7] [[2]] [2] (fun _ => none)).bggIds.getD idx 0,
        dot ((Embeddings.mk [7] [[2]] [2] (fun _ => none)).vectors.getD idx [])
          (rowMeanVec ((([7] : List ℤ).filterMap
              (idIndex (Embeddings.mk [7] [[2]] [2] (fun _ => none)).bggIds)).map
            (fun k => (Embeddings.mk [7] [[2]] [2] (fun _ => none)).vectors.getD k []))) /
        safeDenom ((Embeddings.mk [7] [[2]] [2] (fun _ => none)).norms.getD idx 0 *
          (fun _ => (1 : ℚ))
            (rowMeanVec ((([7] : List ℤ).filterMap
                (idIndex (Embeddings.mk [7] [[2]] [2] (fun _ => none)).bggIds)).map
              (fun k => (Embeddings.mk [7] [[2]] [2] (fun _ => none)).vectors.getD k [])))))) :=
  C8_zero_norm_totality [0] [[3]] 0 0 (fun _ => (1 : ℚ))
    (Embeddings.mk [7] [[2]] [2] (fun _ => none)) [7] [7] ((7 : ℤ), (2 : ℚ))
    (by decide) (by decide) (by with_unfolding_all decide)

lemma setLastWith_length {α : Type} (f : α → α) :
    ∀ l : List α, (setLastWith f l).length = l.length
  | [] => rfl
  | [_] => rfl
  | x :: y :: rest => by
    have := setLastWith_length f (y :: rest)
    simp only [setLastWith, List.length_cons] at this ⊢
    omega

lemma map_setLastWith {α β : Type} (f : α → α) (g : α → β)
    (hfg : ∀ x, g (f x) = g x) :
    ∀ l : List α, (setLastWith f l).map g = l.map g
  | [] => rfl
  | [x] => by simp [setLastWith, hfg]
  | x :: y :: rest => by
    simp only [setLastWith, List.map_cons]
    rw [show (setLastWith f (y :: rest)).map g = (y :: rest).map g from
      map_setLastWith f g hfg (y :: rest)]
    simp

lemma setLastWith_getD_zero {α : Type} (f : α → α) (d : α) :
    ∀ l : List α, 1 < l.length → (setLastWith f l).getD 0 d = l.getD 0 d
  | [], h => by simp at h
  | [_], h => by simp at h
  | _ :: _ :: _, _ => rfl

lemma getD_zero_mem {α : Type} (d : α) {l : List α} (h : l ≠ []) :
    l.getD 0 d ∈ l := by
  cases l with
  | nil => exact absurd rfl h
  | cons x xs => simp

lemma simPairs_fst_mem {store : Embeddings} {likedList : List ℤ} {candId : ℤ}
    {p : ℤ × ℚ} (hp : p ∈ simPairs store likedList candId) : p.1 ∈ likedList := by
  unfold simPairs at hp
  obtain ⟨a, ha, hz⟩ := List.mem_filterMap.mp hp
  cases hs : similarity store candId a with
  | none => rw [hs] at hz; cases hz
  | some s =>
    rw [hs] at hz
    cases hz
    exact ha

lemma enum_map_bggId (sims : List (ℤ × ℚ)) (F : ℕ × (ℤ × ℚ) → String) :
    ((sims.enum.map (fun p => ReferenceExplanation.mk p.2.1
      ((0 : ℤ), "").2 (F p))).map ReferenceExplanation.bggId).length = sims.length := by
  simp

lemma mem_setLastWith {α : Type} (f : α → α) :
    ∀ l : List α, ∀ y ∈ setLastWith f l, y ∈ l ∨ ∃ x ∈ l, y = f x
  | [], y, hy => by cases hy
  | [x], y, hy => by
    rcases List.mem_singleton.mp hy with rfl
    exact Or.inr ⟨x, by simp⟩
  | x :: x2 :: rest, y, hy => by
    rcases List.mem_cons.mp hy with rfl | hmem
    · exact Or.inl (by simp)
    · rcases mem_setLastWith f (x2 :: rest) y hmem with h | ⟨z, hz, rfl⟩
      · exact Or.inl (List.mem_cons.mpr (Or.inr h))
      · exact Or.inr ⟨z, List.mem_cons.mpr (Or.inr hz), rfl⟩

lemma ite_setLast_getD_zero (c : Prop) [Decidable c] (f : ReferenceExplanation → ReferenceExplanation)
    (l : List ReferenceExplanation) (d : ReferenceExplanation) (h : 1 < l.length) :
    (if c then setLastWith f l else l).getD 0 d = l.getD 0 d := by
  split
  · exact setLastWith_getD_zero f d l h
  · rfl

lemma ite_setLast_length (c : Prop) [Decidable c] {α : Type} (f : α → α) (l : List α) :
    (if c then setLastWith f l else l).length = l.length := by
  split
  · exact setLastWith_length f l
  · rfl

lemma bggId_of_mem_ite_setLast (c : Prop) [Decidable c]
    (f : ReferenceExplanation → ReferenceExplanation)
    (hf : ∀ x, (f x).bggId = x.bggId) (l : List ReferenceExplanation)
    {y : ReferenceExplanation} (hy : y ∈ (if c then setLastWith f l else l)) :
    ∃ x ∈ l, y.bggId = x.bggId := by
  by_cases hc : c
  · rw [if_pos hc] at hy
    rcases mem_setLastWith f l y hy with h | ⟨x, hx, rfl⟩
    · exact ⟨y, h, rfl⟩
    · exact ⟨x, hx, hf x⟩
  · rw [if_neg hc] at hy
    exact ⟨y, hy, rfl⟩

lemma positive_through_fixups (refs : List ReferenceExplanation)
    (c1 c2 : Prop) [Decidable c1] [Decidable c2]
    (hne : refs ≠ [])
    (hpos : (refs.getD 0 (ReferenceExplanation.mk 0 "" "")).influence = "positive")
    (hc1 : c1 → 1 < refs.length)
    (hc2 : c2 → 1 < (if c1 then
      setLastWith (fun t => { t with influence := "neutral" }) refs else refs).length) :
    ∃ ref ∈ (if c2 then
        setLastWith (fun t => { t with influence := "negative" })
          (if c1 then setLastWith (fun t => { t with influence := "neutral" }) refs else refs)
      else (if c1 then setLastWith (fun t => { t with influence := "neutral" }) refs else refs)),
      ref.influence = "positive" := by
  have h1len : (if c1 then
      setLastWith (fun t => { t with influence := "neutral" }) refs else refs).length =
      refs.length := ite_setLast_length c1 _ refs
  have h1get : (if c1 then
      setLastWith (fun t => { t with influence := "neutral" }) refs else refs).getD 0
        (ReferenceExplanation.mk 0 "" "") =
      refs.getD 0 (ReferenceExplanation.mk 0 "" "") := by
    by_cases hc : c1
    · rw [if_pos hc]
      exact setLastWith_getD_zero _ _ refs (hc1 hc)
    · rw [if_neg hc]
  have h1ne : (if c1 then
      setLastWith (fun t => { t with influence := "neutral" }) refs else refs) ≠ [] := by
    intro h
    apply hne
    have := congrArg List.length h
    rw [h1len] at this
    exact List.length_eq_zero.mp this
  have h2len : (if c2 then
      setLastWith (fun t => { t with influence := "negative" })
        (if c1 then setLastWith (fun t => { t with influence := "neutral" }) refs else refs)
      else (if c1 then setLastWith (fun t => { t with influence := "neutral" }) refs else refs)).length =
      refs.length := by
    rw [ite_setLast_length, h1len]
  have h2get : (if c2 then
      setLastWith (fun t => { t with influence := "negative" })
        (if c1 then setLastWith (fun t => { t with influence := "neutral" }) refs else refs)
      else (if c1 then setLastWith (fun t => { t with influence := "neutral" }) refs else refs)).getD 0
        (ReferenceExplanation.mk 0 "" "") =
      refs.getD 0 (ReferenceExplanation.mk 0 "" "") := by
    by_cases hc : c2
    · rw [if_pos hc, setLastWith_getD_zero _ _ _ (hc2 hc), h1get]
    · rw [if_neg hc, h1get]
  have h2ne : (if c2 then
      setLastWith (fun t => { t with influence := "negative" })
        (if c1 then setLastWith (fun t => { t with influence := "neutral" }) refs else refs)
      else (if c1 then setLastWith (fun t => { t with influence := "neutral" }) refs else refs)) ≠ [] := by
    intro h
    apply hne
    have := congrArg List.length h
    rw [h2len] at this
    exact List.length_eq_zero.mp this
  refine ⟨_, getD_zero_mem (ReferenceExplanation.mk 0 "" "") h2ne, ?_⟩
  rw [h2get]
  exact hpos

/-- The references produced by one iteration of the reference explainer:
every cited id comes from the liked list, at most `max_references` are cited,
and (when at least one comparison succeeded and at least one reference is
allowed) at least one reference is positive. -/
lemma explainOneRef_refs_spec (store : Embeddings) (likedList : List ℤ)
    (topScore : ℚ) (maxRefs : ℕ) (r : ℕ) (item : ScoredGameId) :
    ∃ refs, (explainOneRef store likedList topScore maxRefs r item).references = some refs ∧
      (∀ ref ∈ refs, ref.bggId ∈ likedList) ∧
      refs.length ≤ maxRefs ∧
      (simPairs store likedList item.bggId ≠ [] → 1 ≤ maxRefs →
        ∃ ref ∈ refs, ref.influence = "positive") := by
  unfold explainOneRef
  simp only []
  set simsSorted := sortByDesc Prod.snd (simPairs store likedList item.bggId) with hss
  set simsRot := if simsSorted ≠ [] ∧ 2 < r then
      simsSorted.drop (r % simsSorted.length) ++ simsSorted.take (r % simsSorted.length)
    else simsSorted with hrot
  have hrotmem : ∀ p ∈ simsRot, p ∈ simPairs store likedList item.bggId := by
    intro p hp
    rw [hrot] at hp
    have hp2 : p ∈ simsSorted := by
      by_cases hc : simsSorted ≠ [] ∧ 2 < r
      · rw [if_pos hc] at hp
        rcases List.mem_append.mp hp with h | h
        · exact (List.drop_subset _ _) h
        · exact (List.take_subset _ _) h
      · rwa [if_neg hc] at hp
    exact (sortByDesc_perm Prod.snd _).mem_iff.mp hp2
  have hrotnil : simsRot = [] → simsSorted = [] := by
    intro h2
    rw [hrot] at h2
    by_cases hc : simsSorted ≠ [] ∧ 2 < r
    · rw [if_pos hc] at h2
      rcases List.append_eq_nil.mp h2 with ⟨hd, ht⟩
      by_contra hne
      have hlen : simsSorted.length ≠ 0 := fun hz => hne (List.length_eq_zero.mp hz)
      have := List.drop_eq_nil_iff_le.mp hd
      have h3 : r % simsSorted.length < simsSorted.length :=
        Nat.mod_lt r (Nat.pos_of_ne_zero hlen)
      omega
    · rwa [if_neg hc] at h2
  set sims := simsRot.take maxRefs with hsims
  by_cases hempty : sims = []
  · rw [if_pos hempty]
    refine ⟨_, rfl, ?_, ?_, ?_⟩
    · intro ref href
      obtain ⟨lid, hlid, rfl⟩ := List.mem_map.mp href
      exact (List.take_subset _ _) hlid
    · calc ((likedList.take maxRefs).map _).length = (likedList.take maxRefs).length :=
        List.length_map _ _
      _ ≤ maxRefs := List.length_take_le _ _
    · intro hne hmax
      exfalso
      apply hne
      have hs0 : simsSorted = [] := by
        apply hrotnil
        rw [hsims] at hempty
        rcases List.take_eq_nil_iff.mp hempty with h | h
        · omega
        · exact h
      have hperm := sortByDesc_perm Prod.snd (simPairs store likedList item.bggId)
      rw [← hss, hs0] at hperm
      exact (List.Perm.nil_eq hperm).symm
  · rw [if_neg hempty]
    simp only []
    refine ⟨_, rfl, ?_, ?_, ?_⟩
    · intro ref href
      obtain ⟨x2, hx2, hb2⟩ := bggId_of_mem_ite_setLast _
        (fun t => { t with influence := "negative" }) (fun x => rfl) _ href
      obtain ⟨x1, hx1, hb1⟩ := bggId_of_mem_ite_setLast _
        (fun t => { t with influence := "neutral" }) (fun x => rfl) _ hx2
      obtain ⟨p, hp, rfl⟩ := List.mem_map.mp hx1
      have hpmem : p.2 ∈ sims := by
        have := List.mem_map_of_mem Prod.snd hp
        rwa [List.enum_map_snd] at this
      rw [hb2, hb1]
      exact simPairs_fst_mem (hrotmem p.2 ((List.take_subset _ _) hpmem))
    · rw [ite_setLast_length, ite_setLast_length, List.length_map, List.enum_length]
      rw [hsims]
      exact List.length_take_le _ _
    · intro _ _
      obtain ⟨s0, ss, hcons⟩ := List.exists_cons_of_ne_nil hempty
      refine positive_through_fixups _ _ _ ?_ ?_ ?_ ?_
      · rw [hcons]
        simp [List.enum_cons]
      · rw [hcons]
        simp only [List.enum_cons, List.map_cons, List.getD_cons_zero]
        simp
      · exact fun hc => hc.2.2
      · exact fun hc => hc.2.1

lemma add_explanations_getD (maxRefs : ℕ) (store : Embeddings)
    (ranked : List ScoredGameId) (likedGames : List ℤ) (r : ℕ)
    (hr : r < ranked.length) (d : RecommendationExplanation) :
    (SimilarityExplanationProvider.add_explanations maxRefs store ranked
        likedGames).getD r d =
      explainOneRef store (likedGames.filter (fun g => store.has_id g))
        (ranked.headD (ScoredGameId.mk 0 0)).score maxRefs r
        (ranked.get ⟨r, hr⟩) := by
  cases ranked with
  | nil => exact absurd hr (by simp)
  | cons a as =>
    unfold SimilarityExplanationProvider.add_explanations
    simp only []
    rw [List.getD_eq_getElem _ _ (by simpa using hr), List.getElem_map,
      List.getElem_enum]
    rfl

/-- Claim C9: every reference-based explanation cites only supplied liked
ids, cites at most `max_references` of them, and contains at least one
positive reference whenever at least one similarity comparison succeeded
(and at least one reference is allowed). -/
theorem C9_reference_invariants (maxRefs : ℕ) (store : Embeddings)
    (ranked : List ScoredGameId) (likedGames : List ℤ) (r : ℕ)
    (hr : r < ranked.length) (hmax : 1 ≤ maxRefs) :
    ∃ refs, ((SimilarityExplanationProvider.add_explanations maxRefs store ranked
          likedGames).getD r (RecommendationExplanation.mk "" none none)).references =
        some refs ∧
      (∀ ref ∈ refs, ref.bggId ∈ likedGames) ∧
      refs.length ≤ maxRefs ∧
      (simPairs store (likedGames.filter (fun g => store.has_id g))
          (ranked.get ⟨r, hr⟩).bggId ≠ [] →
        ∃ ref ∈ refs, ref.influence = "positive") := by
  rw [add_explanations_getD maxRefs store ranked likedGames r hr]
  obtain ⟨refs, hsome, hmem, hlen, hpos⟩ := explainOneRef_refs_spec store
    (likedGames.filter (fun g => store.has_id g))
    (ranked.headD (ScoredGameId.mk 0 0)).score maxRefs r (ranked.get ⟨r, hr⟩)
  refine ⟨refs, hsome, ?_, hlen, fun hne => hpos hne hmax⟩
  intro ref href
  exact List.mem_of_mem_filter (hmem ref href)

/-- Witness for C9 at a concrete instance. -/
theorem C9_reference_invariants_witness :
    ∃ refs, ((SimilarityExplanationProvider.add_explanations 3
          (Embeddings.mk [1, 2] [[1, 0], [1, 0]] [1, 1] (fun _ => none))
          [ScoredGameId.mk 1 2] [1]).getD 0
          (RecommendationExplanation.mk "" none none)).references = some refs ∧
      (∀ ref ∈ refs, ref.bggId ∈ ([1] : List ℤ)) ∧
      refs.length ≤ 3 ∧
      (simPairs (Embeddings.mk [1, 2] [[1, 0], [1, 0]] [1, 1] (fun _ => none))
          (([1] : List ℤ).filter
            (fun g => (Embeddings.mk [1, 2] [[1, 0], [1, 0]] [1, 1]
              (fun _ => none)).has_id g))
          (([ScoredGameId.mk 1 2] : List ScoredGameId).get ⟨0, by decide⟩).bggId ≠ [] →
        ∃ ref ∈ refs, ref.influence = "positive") :=
  C9_reference_invariants 3
    (Embeddings.mk [1, 2] [[1, 0], [1, 0]] [1, 1] (fun _ => none))
    [ScoredGameId.mk 1 2] [1] 0 (by decide) (by decide)

lemma map_ite_setLast_bggId (c : Prop) [Decidable c]
    (f : ReferenceExplanation → ReferenceExplanation)
    (hf : ∀ x, (f x).bggId = x.bggId) (l : List ReferenceExplanation) :
    (if c then setLastWith f l else l).map ReferenceExplanation.bggId =
      l.map ReferenceExplanation.bggId := by
  split
  · exact map_setLastWith f ReferenceExplanation.bggId hf l
  · rfl

lemma map_bggId_enum_map (sims : List (ℤ × ℚ))
    (F : ℕ × (ℤ × ℚ) → ReferenceExplanation)
    (hF : ∀ p, (F p).bggId = p.2.1) :
    (sims.enum.map F).map ReferenceExplanation.bggId = sims.map Prod.fst := by
  rw [List.map_map]
  rw [show (ReferenceExplanation.bggId ∘ F) = fun p => p.2.1 from funext fun p => hF p]
  rw [show sims.enum.map (fun p : ℕ × (ℤ × ℚ) => p.2.1) =
    (sims.enum.map Prod.snd).map Prod.fst from by rw [List.map_map]; rfl]
  rw [List.enum_map_snd]

/-- Claim C5 (amended): for the top three ranked candidates (`rank < 3`) the
reference explainer cites exactly the liked items with the `M` highest
similarities, in descending order; for lower ranks the sorted list is
rotated by `rank mod (number of successful comparisons)` before truncation
(shown false for rank ≥ 3 by the counterexample). -/
theorem C5_top_rank_references (maxRefs : ℕ) (store : Embeddings)
    (ranked : List ScoredGameId) (likedGames : List ℤ) (r : ℕ)
    (hr : r < ranked.length) (h3 : r < 3) (hmax : 1 ≤ maxRefs)
    (hsne : simPairs store (likedGames.filter (fun g => store.has_id g))
      (ranked.get ⟨r, hr⟩).bggId ≠ []) :
    ∃ refs, ((SimilarityExplanationProvider.add_explanations maxRefs store ranked
          likedGames).getD r (RecommendationExplanation.mk "" none none)).references =
        some refs ∧
      refs.map ReferenceExplanation.bggId =
        ((sortByDesc Prod.snd (simPairs store
            (likedGames.filter (fun g => store.has_id g))
            (ranked.get ⟨r, hr⟩).bggId)).take maxRefs).map Prod.fst ∧
      (((sortByDesc Prod.snd (simPairs store
          (likedGames.filter (fun g => store.has_id g))
          (ranked.get ⟨r, hr⟩).bggId)).take maxRefs).map Prod.snd).Pairwise
        (fun a b => b ≤ a) := by
  rw [add_explanations_getD maxRefs store ranked likedGames r hr]
  unfold explainOneRef
  simp only []
  have hsortne : sortByDesc Prod.snd (simPairs store
      (likedGames.filter (fun g => store.has_id g)) (ranked.get ⟨r, hr⟩).bggId) ≠ [] := by
    intro h
    apply hsne
    have hperm := sortByDesc_perm Prod.snd (simPairs store
      (likedGames.filter (fun g => store.has_id g)) (ranked.get ⟨r, hr⟩).bggId)
    rw [h] at hperm
    exact (List.Perm.nil_eq hperm).symm
  have hrotfalse : ¬ ((sortByDesc Prod.snd (simPairs store
      (likedGames.filter (fun g => store.has_id g)) (ranked.get ⟨r, hr⟩).bggId) ≠ []) ∧
      2 < r) := fun hc => absurd hc.2 (by omega)
  rw [if_neg hrotfalse]
  have htakene : (sortByDesc Prod.snd (simPairs store
      (likedGames.filter (fun g => store.has_id g))
      (ranked.get ⟨r, hr⟩).bggId)).take maxRefs ≠ [] := by
    intro h
    rcases List.take_eq_nil_iff.mp h with h | h
    · omega
    · exact hsortne h
  rw [if_neg htakene]
  simp only []
  refine ⟨_, rfl, ?_, ?_⟩
  · rw [map_ite_setLast_bggId _ (fun t => { t with influence := "negative" }) (fun x => rfl),
      map_ite_setLast_bggId _ (fun t => { t with influence := "neutral" }) (fun x => rfl)]
    exact map_bggId_enum_map _ _ (fun p => rfl)
  · rw [List.pairwise_map]
    exact ((sortByDesc_sorted Prod.snd _).sublist (List.take_sublist _ _))

/-- Witness for C5 (amended) at a concrete instance. -/
theorem C5_top_rank_references_witness :
    ∃ refs, ((SimilarityExplanationProvider.add_explanations 3
          (Embeddings.mk [1, 2] [[1, 0], [1, 0]] [1, 1] (fun _ => none))
          [ScoredGameId.mk 1 2] [1]).getD 0
          (RecommendationExplanation.mk "" none none)).references = some refs ∧
      refs.map ReferenceExplanation.bggId =
        ((sortByDesc Prod.snd (simPairs
            (Embeddings.mk [1, 2] [[1, 0], [1, 0]] [1, 1] (fun _ => none))
            (([1] : List ℤ).filter
              (fun g => (Embeddings.mk [1, 2] [[1, 0], [1, 0]] [1, 1]
                (fun _ => none)).has_id g))
            (([ScoredGameId.mk 1 2] :
              List ScoredGameId).get ⟨0, by decide⟩).bggId)).take 3).map Prod.fst ∧
      (((sortByDesc Prod.snd (simPairs
          (Embeddings.mk [1, 2] [[1, 0], [1, 0]] [1, 1] (fun _ => none))
          (([1] : List ℤ).filter
            (fun g => (Embeddings.mk [1, 2] [[1, 0], [1, 0]] [1, 1]
              (fun _ => none)).has_id g))
          (([ScoredGameId.mk 1 2] :
            List ScoredGameId).get ⟨0, by decide⟩).bggId)).take 3).map Prod.snd).Pairwise
        (fun a b => b ≤ a) :=
  C5_top_rank_references 3
    (Embeddings.mk [1, 2] [[1, 0], [1, 0]] [1, 1] (fun _ => none))
    [ScoredGameId.mk 1 2] [1] 0 (by decide) (by decide) (by decide)
    (by with_unfolding_all decide)

/-- Counterexample to C5 as stated: the 4th-ranked candidate (rank 3) cites
liked id 1 (similarity 3/5) before liked id 2 (similarity 4/5) — the
rotation for ranks > 2 breaks the descending top-M order. -/
theorem C5_rotation_counterexample :
    ((SimilarityExplanationProvider.add_explanations 3
        (Embeddings.mk [1, 2, 11, 12, 13, 14]
          [[1, 0], [0, 1], [3/5, 4/5], [3/5, 4/5], [3/5, 4/5], [3/5, 4/5]]
          [1, 1, 1, 1, 1, 1] (fun _ => none))
        [ScoredGameId.mk 1 11, ScoredGameId.mk 1 12, ScoredGameId.mk 1 13,
          ScoredGameId.mk (9/10) 14] [1, 2]).getD 3
        (RecommendationExplanation.mk "" none none)).references =
      some [ReferenceExplanation.mk 1 "" "positive",
            ReferenceExplanation.mk 2 "" "negative"] ∧
    similarity (Embeddings.mk [1, 2, 11, 12, 13, 14]
        [[1, 0], [0, 1], [3/5, 4/5], [3/5, 4/5], [3/5, 4/5], [3/5, 4/5]]
        [1, 1, 1, 1, 1, 1] (fun _ => none)) 14 1 = some (3/5) ∧
    similarity (Embeddings.mk [1, 2, 11, 12, 13, 14]
        [[1, 0], [0, 1], [3/5, 4/5], [3/5, 4/5], [3/5, 4/5], [3/5, 4/5]]
        [1, 1, 1, 1, 1, 1] (fun _ => none)) 14 2 = some (4/5) ∧
    ((3 : ℚ)/5 < 4/5) := by
  refine ⟨?_, ?_, ?_, ?_⟩ <;> with_unfolding_all decide

/-- Claim C6 (code-bug exhibit): a recommended candidate with two tags
("acting" as mechanic, "fantasy" as theme) whose only positive tag is the
last one loses it to the weak-item contrast rule (`score < 0.6 × top`),
leaving an explanation with tags but NO positive tag — the forced-positive
fixup runs before the contrast rule and is not re-applied. -/
theorem C6_positive_tag_missing :
    feature_hints (Boardgame.mk 11 "Weak Pick" ["acting"] ["fantasy"] []) ≠ [] ∧
    ((FeatureHintExplanationProvider.add_explanations 3
        (Embeddings.mk [11, 1] [[1, 0], [1, 0]] [1, 1] (fun _ => none))
        [ScoredGameId.mk 1 10, ScoredGameId.mk (1/2) 11] [1]
        [Boardgame.mk 10 "Filler" [] [] [],
         Boardgame.mk 11 "Weak Pick" ["acting"] ["fantasy"] [],
         Boardgame.mk 1 "Liked One" [] ["fantasy"] []]).getD 1
        (RecommendationExplanation.mk "" none none)).features =
      some [FeatureExplanation.mk "acting" "mechanic" "neutral",
            FeatureExplanation.mk "fantasy" "theme" "negative"] ∧
    (((FeatureHintExplanationProvider.add_explanations 3
        (Embeddings.mk [11, 1] [[1, 0], [1, 0]] [1, 1] (fun _ => none))
        [ScoredGameId.mk 1 10, ScoredGameId.mk (1/2) 11] [1]
        [Boardgame.mk 10 "Filler" [] [] [],
         Boardgame.mk 11 "Weak Pick" ["acting"] ["fantasy"] [],
         Boardgame.mk 1 "Liked One" [] ["fantasy"] []]).getD 1
        (RecommendationExplanation.mk "" none none)).features.getD []).all
      (fun f => f.influence ≠ "positive") = true := by
  refine ⟨?_, ?_, ?_⟩ <;> with_unfolding_all decide

end BoardgamesApi
